import Mathlib

/-!
Verification of the extraction core of the `forest` Rust-project analyser
(`src/main.rs`).  Rust strings are modelled as `List Char` (the analysed
inputs are ASCII, so Rust byte indices coincide with character indices);
`&s[i..j]` is modelled by `sliceE`, which returns `Except.error ()` exactly
when the Rust slice would panic (`i > j` or `j > s.length`).  Fallible Rust
control flow (a reachable panic) is modelled by the `Except Unit` monad:
`.error ()` means the Rust program panics.
-/

namespace Forest

/-- Whitespace test used by the model of Rust `str::trim` (ASCII fragment of
Rust's Unicode definition; all inputs considered here are ASCII). -/
def isWs (c : Char) : Bool :=
  c = ' ' || c = '\t' || c = '\n' || c = '\r'

/-- Model of Rust `str::trim_start`. -/
def trimStart (s : List Char) : List Char :=
  s.dropWhile isWs

/-- Model of Rust `str::trim_end`. -/
def trimEnd (s : List Char) : List Char :=
  (s.reverse.dropWhile isWs).reverse

/-- Model of Rust `str::trim`. -/
def trim (s : List Char) : List Char :=
  trimEnd (trimStart s)

/-- Model of Rust `str::starts_with` for a string pattern. -/
def startsWithL (s pat : List Char) : Bool :=
  pat.isPrefixOf s

/-- Model of Rust `str::ends_with` for a string pattern. -/
def endsWithL (s pat : List Char) : Bool :=
  pat.reverse.isPrefixOf s.reverse

/-- Model of Rust `str::strip_prefix`. -/
def stripPre (s pat : List Char) : Option (List Char) :=
  if pat.isPrefixOf s then some (s.drop pat.length) else none

/-- Model of Rust `str::contains` for a `char` pattern. -/
def containsChar (s : List Char) (c : Char) : Bool :=
  s.contains c

/-- Model of Rust `str::find` for a string pattern: index of the first
occurrence. -/
def findSub (s pat : List Char) : Option Nat :=
  (List.range (s.length + 1)).find? (fun i => pat.isPrefixOf (s.drop i))

/-- Model of Rust `str::contains` for a string pattern. -/
def containsSub (s pat : List Char) : Bool :=
  (findSub s pat).isSome

/-- Model of Rust `str::find` for a `char` pattern. -/
def findCharIdx (s : List Char) (c : Char) : Option Nat :=
  s.findIdx? (· = c)

/-- Model of Rust `str::rfind` for a `char` pattern: index of the last
occurrence. -/
def rfindCharIdx (s : List Char) (c : Char) : Option Nat :=
  match s.reverse.findIdx? (· = c) with
  | some i => some (s.length - 1 - i)
  | none => none

/-- Total model of the in-range Rust slice `&s[i..j]` (callers use it only
after the bounds have been established or checked). -/
def seg (s : List Char) (i j : Nat) : List Char :=
  (s.drop i).take (j - i)

/-- Model of the Rust slice `&s[i..j]`, with the panic on `i > j` or
`j > s.length` surfaced as `Except.error ()`. -/
def sliceE (s : List Char) (i j : Nat) : Except Unit (List Char) :=
  if i ≤ j ∧ j ≤ s.length then .ok (seg s i j) else .error ()

/-- Model of Rust `str::split` over a set of separator characters given as a
predicate: empty pieces are kept, and the empty string yields one empty
piece. -/
def splitOnPred (p : Char → Bool) : List Char → List (List Char)
  | [] => [[]]
  | ch :: t =>
    match splitOnPred p t with
    | [] => [[ch]]
    | h :: rest => if p ch then [] :: h :: rest else (ch :: h) :: rest

/-- Model of Rust `str::split(char)`. -/
def splitOnChar (c : Char) (s : List Char) : List (List Char) :=
  splitOnPred (· = c) s

/-- Model of Rust `str::split_whitespace` (empty pieces dropped). -/
def wsplit (s : List Char) : List (List Char) :=
  (splitOnPred isWs s).filter (fun w => !w.isEmpty)

/-- Model of Rust `str::split_once(char)`. -/
def splitOnceChar (c : Char) (s : List Char) : Option (List Char × List Char) :=
  match findCharIdx s c with
  | some i => some (s.take i, s.drop (i + 1))
  | none => none

/-- Model of Rust `str::parse::<usize>()`: optional leading `+`, then one or
more ASCII digits (overflow is not modelled; the analysed inputs are tiny). -/
def parseUsize (s : List Char) : Option Nat :=
  let t := match s with
    | '+' :: r => r
    | _ => s
  if t.isEmpty then none
  else if t.all Char.isDigit then
    some (t.foldl (fun acc c => acc * 10 + (c.toNat - '0'.toNat)) 0)
  else none

/-- Model of Rust `str::trim_start_matches(pat)` for a string pattern:
repeatedly removes the prefix.  Implemented with internal fuel
`s.length` (each successful step removes at least one character, so the fuel
is never exhausted for a non-empty pattern). -/
def trimStartMatchesF (pat : List Char) : Nat → List Char → List Char
  | 0, s => s
  | fuel + 1, s =>
    if pat.isPrefixOf s && !pat.isEmpty then
      trimStartMatchesF pat fuel (s.drop pat.length)
    else s

/-- Model of Rust `str::trim_start_matches(pat)` for a string pattern. -/
def trimStartMatchesS (pat s : List Char) : List Char :=
  trimStartMatchesF pat s.length s

/-- Model of Rust `str::trim_start_matches(c)` for a `char` pattern. -/
def trimStartMatchesC (c : Char) (s : List Char) : List Char :=
  s.dropWhile (· = c)

/-- Model of Rust `str::trim_end_matches(c)` for a `char` pattern. -/
def trimEndMatchesC (c : Char) (s : List Char) : List Char :=
  (s.reverse.dropWhile (· = c)).reverse

theorem trimStart_length_le (s : List Char) : (trimStart s).length ≤ s.length :=
  (List.dropWhile_suffix isWs).sublist.length_le

theorem trimEnd_length_le (s : List Char) : (trimEnd s).length ≤ s.length := by
  have := (List.dropWhile_suffix (l := s.reverse) isWs).sublist.length_le
  simpa [trimEnd] using this

theorem trim_length_le (s : List Char) : (trim s).length ≤ s.length :=
  le_trans (trimEnd_length_le _) (trimStart_length_le s)

theorem trimStartMatchesF_length_le (pat : List Char) :
    ∀ fuel s, (trimStartMatchesF pat fuel s).length ≤ s.length := by
  intro fuel
  induction fuel with
  | zero => intro s; simp [trimStartMatchesF]
  | succ n ih =>
    intro s
    by_cases h : (pat.isPrefixOf s && !pat.isEmpty) = true
    · calc (trimStartMatchesF pat (n + 1) s).length
          = (trimStartMatchesF pat n (s.drop pat.length)).length := by
            simp only [trimStartMatchesF, h, if_true]
        _ ≤ (s.drop pat.length).length := ih _
        _ ≤ s.length := by simp
    · have he : trimStartMatchesF pat (n + 1) s = s := by
        simp only [trimStartMatchesF, if_neg h]
      simp [he]

theorem trimStartMatchesS_length_le (pat s : List Char) :
    (trimStartMatchesS pat s).length ≤ s.length :=
  trimStartMatchesF_length_le pat s.length s

theorem trimEndMatchesC_length_le (c : Char) (s : List Char) :
    (trimEndMatchesC c s).length ≤ s.length := by
  have := (List.dropWhile_suffix (l := s.reverse) (· = c)).sublist.length_le
  simpa [trimEndMatchesC] using this

theorem findCharIdx_lt_length {s : List Char} {c : Char} {i : Nat}
    (h : findCharIdx s c = some i) : i < s.length :=
  List.findIdx?_eq_some_iff_findIdx_eq.mp h |>.1

theorem rfindCharIdx_lt_length {s : List Char} {c : Char} {i : Nat}
    (h : rfindCharIdx s c = some i) : i < s.length := by
  unfold rfindCharIdx at h
  cases hr : s.reverse.findIdx? (· = c) with
  | none => simp [hr] at h
  | some j =>
    simp only [hr] at h
    have hj : j < s.reverse.length :=
      (List.findIdx?_eq_some_iff_findIdx_eq.mp hr).1
    have hs : 0 < s.length := by
      by_contra hz
      have : s = [] := List.eq_nil_of_length_eq_zero (by omega)
      subst this; simp at hj
    cases h
    omega

theorem mem_splitOnPred_length_le {q : Char → Bool} :
    ∀ (s : List Char), ∀ p ∈ splitOnPred q s, p.length ≤ s.length := by
  intro s
  induction s with
  | nil =>
    intro p hp
    simp [splitOnPred] at hp
    simp [hp]
  | cons ch t ih =>
    intro p hp
    unfold splitOnPred at hp
    cases hacc : splitOnPred q t with
    | nil =>
      rw [hacc] at hp
      simp at hp
      simp [hp]
    | cons h0 t0 =>
      rw [hacc] at hp
      have hp' : p ∈ (if q ch = true then [] :: h0 :: t0 else (ch :: h0) :: t0) := hp
      have ihs : ∀ w ∈ h0 :: t0, w.length ≤ t.length := by
        intro w hw
        exact ih w (by rw [hacc]; exact hw)
      by_cases hc : q ch = true
      · rw [if_pos hc, List.mem_cons] at hp'
        rcases hp' with hp1 | hp1
        · simp [hp1]
        · exact le_trans (ihs p hp1) (by simp)
      · rw [if_neg hc, List.mem_cons] at hp'
        rcases hp' with hp1 | hp1
        · have := ihs h0 (by simp)
          rw [hp1]
          simpa using this
        · exact le_trans (ihs p (by simp [hp1])) (by simp)

theorem mem_splitOnChar_length_le {c : Char} {s : List Char} :
    ∀ p ∈ splitOnChar c s, p.length ≤ s.length :=
  mem_splitOnPred_length_le s

theorem seg_length_le (s : List Char) (i j : Nat) :
    (seg s i j).length ≤ j - i := by
  simp [seg]

theorem seg_length_le_sub (s : List Char) (i j : Nat) :
    (seg s i j).length ≤ s.length - i := by
  simp only [seg, List.length_take, List.length_drop]
  omega

theorem trimStartMatchesS_eq_of_not_pre {pat t : List Char}
    (h : ¬pat.isPrefixOf t = true) : trimStartMatchesS pat t = t := by
  unfold trimStartMatchesS
  cases hl : t.length with
  | zero => simp [trimStartMatchesF]
  | succ m =>
    unfold trimStartMatchesF
    rw [if_neg]
    simp [h]

theorem trimStartMatchesS_length_le_of_pre {pat t : List Char}
    (hp : pat.isPrefixOf t = true) (hne : pat ≠ []) :
    (trimStartMatchesS pat t).length ≤ t.length - pat.length := by
  have hlen : pat.length ≤ t.length := (List.isPrefixOf_iff_prefix.mp hp).length_le
  have hpos : 0 < pat.length := List.length_pos.mpr hne
  unfold trimStartMatchesS
  cases hl : t.length with
  | zero => omega
  | succ m =>
    unfold trimStartMatchesF
    rw [if_pos]
    · have hc : (trimStartMatchesF pat m (t.drop pat.length)).length
          ≤ (t.drop pat.length).length := trimStartMatchesF_length_le _ _ _
      simp only [List.length_drop] at hc
      omega
    · simp [hp, hne]

/-- The argument of the recursive call in the reference branch of
`extract_detailed_type`. -/
def dropAmp (t : List Char) : List Char :=
  trimStartMatchesC '&' (trimStartMatchesS (String.toList "&mut ") t)

theorem dropAmp_length_lt {t : List Char}
    (h : startsWithL t (String.toList "&") = true) :
    (dropAmp t).length < t.length := by
  have hne : t ≠ [] := by
    intro he
    subst he
    simp [startsWithL, List.isPrefixOf] at h
  by_cases hm : (String.toList "&mut ").isPrefixOf t = true
  · have h1 := trimStartMatchesS_length_le_of_pre hm (by simp)
    have h2 := (List.dropWhile_suffix
      (l := trimStartMatchesS (String.toList "&mut ") t) (· = '&')).sublist.length_le
    have h3 : (String.toList "&mut ").length ≤ t.length :=
      (List.isPrefixOf_iff_prefix.mp hm).length_le
    simp only [dropAmp, trimStartMatchesC]
    have h4 : (String.toList "&mut ").length = 5 := by rfl
    omega
  · rw [dropAmp, trimStartMatchesS_eq_of_not_pre hm]
    cases t with
    | nil => exact absurd rfl hne
    | cons c0 rest =>
      have hc0 : c0 = '&' := by
        simp [startsWithL, List.isPrefixOf] at h
        exact h.symm
      subst hc0
      have h2 := (List.dropWhile_suffix (l := rest) (· = '&')).sublist.length_le
      have h3 : trimStartMatchesC '&' ('&' :: rest) = List.dropWhile (· = '&') rest := by
        simp [trimStartMatchesC, List.dropWhile_cons]
      rw [h3]
      simp only [List.length_cons]
      omega

/--
Model of `extract_detailed_type` (src/main.rs:1307).  Returns
`Except.error ()` when the Rust code panics: the slice
`type_str[generic_start + 1..generic_end]` is taken without checking
`generic_start + 1 <= generic_end`, and `find(';').unwrap()` in the array
branch is modelled by an error in the (unreachable) `none` case.
-/
def extract_detailed_type (s : List Char) : Except Unit (List Char) :=
  let t := trim s
  if t.isEmpty || t == String.toList "inferred" then .ok (String.toList "inferred")
  else if hAmp : startsWithL t (String.toList "&") = true then
    let mutPre := if startsWithL t (String.toList "&mut ") then
        String.toList "mutable " else []
    match extract_detailed_type (dropAmp t) with
    | .error e => .error e
    | .ok r => .ok (mutPre ++ String.toList "reference to " ++ r)
  else
    match hgs : findCharIdx t '<' with
    | some gs =>
      match rfindCharIdx t '>' with
      | some ge =>
        let baseT := trim (t.take gs)
        if hord : gs + 1 ≤ ge ∧ ge ≤ t.length then
          let gp := trim (seg t (gs + 1) ge)
          if baseT == String.toList "Vec" then
            match extract_detailed_type gp with
            | .error e => .error e
            | .ok r => .ok (String.toList "vector of " ++ r)
          else if baseT == String.toList "Option" then
            match extract_detailed_type gp with
            | .error e => .error e
            | .ok r => .ok (String.toList "optional " ++ r)
          else if baseT == String.toList "Result" then
            match findCharIdx gp ',' with
            | some ci =>
              match extract_detailed_type (gp.take ci) with
              | .error e => .error e
              | .ok okT =>
                match extract_detailed_type (gp.drop (ci + 1)) with
                | .error e => .error e
                | .ok errT => .ok (String.toList "result with Ok(" ++ okT ++
                    String.toList ") or Err(" ++ errT ++ String.toList ")")
            | none =>
              match extract_detailed_type gp with
              | .error e => .error e
              | .ok r => .ok (String.toList "result of " ++ r)
          else if baseT == String.toList "HashMap" || baseT == String.toList "BTreeMap" then
            match findCharIdx gp ',' with
            | some ci =>
              match extract_detailed_type (gp.take ci) with
              | .error e => .error e
              | .ok keyT =>
                match extract_detailed_type (gp.drop (ci + 1)) with
                | .error e => .error e
                | .ok valT => .ok (String.toList "map from " ++ keyT ++
                    String.toList " to " ++ valT)
            | none => .ok (String.toList "map")
          else if baseT == String.toList "HashSet" || baseT == String.toList "BTreeSet" then
            match extract_detailed_type gp with
            | .error e => .error e
            | .ok r => .ok (String.toList "set of " ++ r)
          else
            .ok (baseT ++ String.toList "<" ++ gp ++ String.toList ">")
        else .error ()
      | none => .ok t
    | none =>
      if startsWithL t (String.toList "[") && containsChar t ';' then
        match hsi : findCharIdx t ';' with
        | some si =>
          match extract_detailed_type (seg t 1 si) with
          | .error e => .error e
          | .ok r => .ok (String.toList "array of " ++ r ++
              String.toList " with size " ++ trimEndMatchesC ']' (t.drop (si + 1)))
        | none => .error ()
      else if startsWithL t (String.toList "(") && endsWithL t (String.toList ")") then
        if seg t 1 (t.length - 1) = [] then .ok (String.toList "unit type ()")
        else
          match (splitOnChar ',' (seg t 1 (t.length - 1))).attach.mapM
              (fun ⟨cpt, hcpt⟩ => extract_detailed_type (trim cpt)) with
          | .error e => .error e
          | .ok comps => .ok (String.toList "tuple of (" ++
              List.intercalate (String.toList ", ") comps ++ String.toList ")")
      else
        .ok (match String.mk t with
          | "i8" | "i16" | "i32" | "i64" | "i128" | "isize" =>
            String.toList "integer (" ++ t ++ String.toList ")"
          | "u8" | "u16" | "u32" | "u64" | "u128" | "usize" =>
            String.toList "unsigned integer (" ++ t ++ String.toList ")"
          | "f32" | "f64" => String.toList "floating-point (" ++ t ++ String.toList ")"
          | "bool" => String.toList "boolean"
          | "char" => String.toList "character"
          | "String" => String.toList "owned string"
          | "str" => String.toList "string slice"
          | _ => t)
  termination_by s.length
  decreasing_by
  all_goals first
  | exact lt_of_lt_of_le (dropAmp_length_lt hAmp) (trim_length_le s)
  | (have h2 := trim_length_le s
     have hgl : gs < (trim s).length := findCharIdx_lt_length hgs
     have h1 : (trim (seg (trim s) (gs + 1) ge)).length ≤ (trim s).length - (gs + 1) :=
       le_trans (trim_length_le _) (seg_length_le_sub _ _ _)
     first
     | omega
     | (simp only [List.length_take, List.length_drop]
        omega))
  | (have h2 := trim_length_le s
     have hsl : si < (trim s).length := findCharIdx_lt_length hsi
     have h1 := seg_length_le (trim s) 1 si
     omega)
  | (rename_i hne0
     have h2 : t.length ≤ s.length := trim_length_le s
     have h3 := mem_splitOnChar_length_le cpt hcpt
     have h4 : (seg t 1 (t.length - 1)).length ≤ t.length - 1 := seg_length_le_sub _ _ _
     have h5 := trim_length_le cpt
     have h6 : 1 ≤ (seg t 1 (t.length - 1)).length := List.length_pos.mpr hne0
     omega)

/-- The `let`-branch of `infer_type_from_context` (src/main.rs:1207-1263):
`some r` models an early `return r`, `none` models falling through to the
later heuristics. -/
def iftcLet (context : List Char) : Option (Except Unit (List Char)) :=
  match findSub context (String.toList "let") with
  | none => none
  | some idx =>
    let tyAttempt : Option (Except Unit (List Char)) :=
      match findCharIdx (context.drop idx) ':' with
      | some ts =>
        let te := ((context.drop (idx + ts)).findIdx? (fun c => c = ';' || c = '=')).getD
          (context.length - (idx + ts))
        if ts + 1 < te then
          some (extract_detailed_type (trim (seg context (idx + ts + 1) (idx + ts + te))))
        else none
      | none => none
    match tyAttempt with
    | some r => some r
    | none =>
      match findCharIdx (context.drop idx) '=' with
      | none => none
      | some eqi =>
        let rhs := trim (context.drop (idx + eqi + 1))
        if containsChar (context.take idx) '[' then
          if containsSub rhs (String.toList "vec!") || containsSub rhs (String.toList "Vec::") then
            match findCharIdx rhs '<' with
            | some asi =>
              match findCharIdx (rhs.drop asi) '>' with
              | some ae =>
                some (match extract_detailed_type (trim (seg rhs (asi + 1) (asi + ae))) with
                  | .error e => .error e
                  | .ok r => .ok (String.toList "vector element of " ++ r))
              | none => some (.ok (String.toList "vector element"))
            | none => some (.ok (String.toList "vector element"))
          else some (.ok (String.toList "array element"))
        else if containsSub rhs (String.toList "Some(") then
          some (.ok (String.toList "value inside Option"))
        else if containsSub rhs (String.toList "Ok(") then
          some (.ok (String.toList "success value"))
        else if containsSub rhs (String.toList "Err(") then
          some (.ok (String.toList "error value"))
        else if containsSub rhs (String.toList ".iter()") then
          some (.ok (String.toList "reference to collection element"))
        else if containsSub rhs (String.toList ".iter_mut()") then
          some (.ok (String.toList "mutable reference to collection element"))
        else if containsSub rhs (String.toList ".into_iter()") then
          some (.ok (String.toList "owned collection element"))
        else none

/-- Model of `infer_type_from_context` (src/main.rs:1203-1304).  The result is
in `Except Unit` because the annotation branch delegates to
`extract_detailed_type`, which can panic. -/
def infer_type_from_context (context : List Char) : Except Unit (List Char) :=
  match iftcLet context with
  | some r => r
  | none =>
    if (containsSub context (String.toList "fn ") ||
        containsSub context (String.toList "pub fn ")) && containsChar context '(' then
      .ok (String.toList "function parameter")
    else if containsSub context (String.toList "for") &&
        containsSub context (String.toList "in") then
      if containsSub context (String.toList "..") then
        .ok (String.toList "integer from range")
      else if containsSub context (String.toList "iter()") then
        .ok (String.toList "reference to collection element")
      else if containsSub context (String.toList "iter_mut()") then
        .ok (String.toList "mutable reference to collection element")
      else if containsSub context (String.toList "into_iter()") then
        .ok (String.toList "owned collection element")
      else .ok (String.toList "iteration variable")
    else if containsSub context (String.toList "let Some(") then
      .ok (String.toList "value inside Option")
    else if containsSub context (String.toList "let Ok(") then
      .ok (String.toList "success value from Result")
    else if containsSub context (String.toList "let Err(") then
      .ok (String.toList "error value from Result")
    else .ok (String.toList "inferred from context")

/-- Model of `infer_basic_type_from_context` (src/main.rs:253-314).  In the
source every arm of the annotation match returns the annotation substring
itself, so that branch collapses to the trimmed substring. -/
def infer_basic_type_from_context (context : List Char) : List Char :=
  let fromEq : List Char :=
    match findCharIdx context '=' with
    | some eqi =>
      let rhs := trim (context.drop (eqi + 1))
      if startsWithL rhs (String.toList "\"") then String.toList "String"
      else if rhs = String.toList "true" || rhs = String.toList "false" then
        String.toList "bool"
      else if (rhs.head?.map Char.isDigit).getD false then
        if containsChar rhs '.' then String.toList "f64" else String.toList "i32"
      else if startsWithL rhs (String.toList "\x27") && 3 ≤ rhs.length then
        String.toList "char"
      else if startsWithL rhs (String.toList "vec!") ||
          containsSub rhs (String.toList "Vec::") then String.toList "Vec<T>"
      else if startsWithL rhs (String.toList "Some(") then String.toList "Option<T>"
      else String.toList "unknown"
    | none => String.toList "unknown"
  match findCharIdx context ':' with
  | some idx =>
    let after := context.drop (idx + 1)
    let endIdx := (after.findIdx? (fun c => c = ';' || c = '=')).getD after.length
    if 0 < endIdx then trim (after.take endIdx) else fromEq
  | none => fromEq

/-- Model of `infer_destructuring_type` (src/main.rs:1411-1454), with the
nested early returns flattened into an if-chain. -/
def infer_destructuring_type (rhs pattern : List Char) : List Char :=
  if (startsWithL rhs (String.toList "vec!") || containsSub rhs (String.toList "Vec::")) &&
      startsWithL pattern (String.toList "[") then String.toList "vector element"
  else if startsWithL rhs (String.toList "[") && startsWithL pattern (String.toList "[") then
    String.toList "array element"
  else if containsSub rhs (String.toList "Some(") &&
      startsWithL pattern (String.toList "Some(") then String.toList "optional value"
  else if (containsSub rhs (String.toList "Ok(") || containsSub rhs (String.toList "Err(")) &&
      startsWithL pattern (String.toList "Ok(") then String.toList "success value"
  else if (containsSub rhs (String.toList "Ok(") || containsSub rhs (String.toList "Err(")) &&
      startsWithL pattern (String.toList "Err(") then String.toList "error value"
  else if (startsWithL pattern (String.toList "(") && containsChar rhs '(') ||
      (startsWithL pattern (String.toList "\x7b") && containsChar rhs '\x7b') then
    String.toList "tuple or struct field"
  else String.toList "destructured value"

/-- Model of `infer_type_from_initialization` (src/main.rs:1863-1917). -/
def infer_type_from_initialization (line : List Char) : List Char :=
  match findCharIdx line '=' with
  | none => String.toList "inferred"
  | some eqi =>
    let rhs := trim (line.drop (eqi + 1))
    if startsWithL rhs (String.toList "\"") then String.toList "string"
    else if startsWithL rhs (String.toList "\x27") && 3 ≤ rhs.length then
      String.toList "character"
    else if (rhs.head?.map Char.isDigit).getD false then
      if containsChar rhs '.' then String.toList "floating-point" else String.toList "integer"
    else if rhs = String.toList "true" || rhs = String.toList "false" then
      String.toList "boolean"
    else if startsWithL rhs (String.toList "[") then
      if containsSub rhs (String.toList "vec!") || containsSub rhs (String.toList "Vec::new") then
        String.toList "vector"
      else String.toList "array"
    else if containsSub rhs (String.toList "\x7b") && !startsWithL rhs (String.toList "if") &&
        !startsWithL rhs (String.toList "match") then
      let structName := trim (rhs.takeWhile (· ≠ '\x7b'))
      if structName.isEmpty then String.toList "struct" else structName
    else if containsSub rhs (String.toList "(") && !startsWithL rhs (String.toList "if") &&
        !startsWithL rhs (String.toList "match") then
      String.toList "function result"
    else String.toList "inferred"

/-- Model of `infer_type_from_loop` (src/main.rs:1920-1940). -/
def infer_type_from_loop (line : List Char) : List Char :=
  if containsSub line (String.toList "for") && containsSub line (String.toList "in") then
    if containsSub line (String.toList ".iter()") then
      String.toList "reference to collection element"
    else if containsSub line (String.toList ".iter_mut()") then
      String.toList "mutable reference to collection element"
    else if containsSub line (String.toList ".into_iter()") then
      String.toList "owned collection element"
    else if containsSub line (String.toList "..") then String.toList "integer (range)"
    else String.toList "collection element"
  else String.toList "inferred from loop"

/-- Model of `infer_type_from_pattern` (src/main.rs:2057-2082). -/
def infer_type_from_pattern (line : List Char) : List Char :=
  if containsSub line (String.toList "Some(") then String.toList "optional value content"
  else if containsSub line (String.toList "Ok(") then String.toList "success result value"
  else if containsSub line (String.toList "Err(") then String.toList "error result value"
  else if containsSub line (String.toList "if let") && containsSub line (String.toList "=") then
    match findCharIdx line '=' with
    | some eqi =>
      let rhs := trim (line.drop (eqi + 1))
      if !rhs.isEmpty then
        String.toList "part of " ++ infer_type_from_initialization (String.toList "let x = " ++ rhs)
      else String.toList "pattern matched value"
    | none => String.toList "pattern matched value"
  else String.toList "pattern matched value"

/-- Separator set `"()[]\x7b\x7d,"` used by the destructuring branch of
`extract_var_name_and_kind`. -/
def isBracketComma (c : Char) : Bool :=
  c = '(' || c = ')' || c = '[' || c = ']' || c = '\x7b' || c = '\x7d' || c = ','

/-- Character class used for identifier ends: Rust
`!c.is_alphanumeric() && c != '_'` (ASCII fragment). -/
def isIdentEnd (c : Char) : Bool :=
  !(c.isAlphanum || c = '_')

/-- Model of `extract_var_name_and_kind` (src/main.rs:1769-1846).  The
destructuring branch slices `&rest[0..pattern_end + 1]`; when the closing
bracket is missing, `pattern_end` is `rest.len()` and the Rust slice
panics - modelled by `sliceE` returning `.error ()`. -/
def extract_var_name_and_kind (line : List Char) (start : Nat) :
    Except Unit (Option (List Char × List Char)) := do
  let rest ← sliceE line start line.length
  if startsWithL rest (String.toList "(") || startsWithL rest (String.toList "\x7b") ||
      startsWithL rest (String.toList "[") then
    let pend := (if startsWithL rest (String.toList "(") then findCharIdx rest ')'
      else if startsWithL rest (String.toList "\x7b") then findCharIdx rest '\x7d'
      else findCharIdx rest ']').getD rest.length
    let pattern ← sliceE rest 0 (pend + 1)
    let firstVar := (((splitOnPred isBracketComma pattern).map trim).find?
      (fun s2 => !s2.isEmpty && !startsWithL s2 (String.toList ".."))).getD
      (String.toList "unknown")
    let typeStr :=
      match findCharIdx (rest.drop pend) ':' with
      | some ti =>
        let tstart := pend + ti + 1
        let tend := ((rest.drop tstart).findIdx? (fun c => c = ';' || c = '=')).getD
          (rest.length - tstart)
        if tstart < tend then trim (seg rest tstart tend)
        else String.toList "complex pattern"
      | none =>
        match findCharIdx rest '=' with
        | some eqi => infer_destructuring_type (trim (rest.drop (eqi + 1))) pattern
        | none => String.toList "complex pattern"
    pure (some (firstVar, typeStr))
  else
    let ne0 := rest.findIdx? isIdentEnd
    let nameEnd := if ne0.isNone && !rest.isEmpty then some rest.length else ne0
    match nameEnd with
    | some e =>
      if 0 < e then
        let name := rest.take e
        let varKind :=
          match findCharIdx rest ':' with
          | some ks =>
            let ke := ((rest.drop ks).findIdx? (fun c => c = ';' || c = '=')).getD
              (rest.length - ks)
            if ks + 1 ≥ ke + ks then String.toList "inferred"
            else trim (seg rest (ks + 1) (ks + ke))
          | none => String.toList "inferred"
        pure (some (name, varKind))
      else pure none
    | none => pure none

/-- Model of `extract_name_from_for_loop` (src/main.rs:1849-1860). -/
def extract_name_from_for_loop (line : List Char) (start : Nat) :
    Except Unit (Option (List Char × List Char)) := do
  let rest ← sliceE line start line.length
  match rest.findIdx? isIdentEnd with
  | some e =>
    if 0 < e then pure (some (rest.take e, String.toList "inferred from loop"))
    else pure none
  | none =>
    if !rest.isEmpty then pure (some (rest, String.toList "inferred from loop"))
    else pure none

/-- Model of `extract_data_structure_info` (src/main.rs:2085-2100).  Note the
searched keyword is the caller-supplied `data_structure_type` string
("function", "struct", "enum"), not the Rust source keyword. -/
def extract_data_structure_info (line dsType : List Char) (ln : Nat) :
    Option (List Char × Nat) :=
  match findSub line dsType with
  | none => none
  | some p =>
    match (line.drop (p + dsType.length)).findIdx? isIdentEnd with
    | some e => if 0 < e then some ((line.drop (p + dsType.length)).take e, ln) else none
    | none =>
      if !(line.drop (p + dsType.length)).isEmpty then some (line.drop (p + dsType.length), ln)
      else none


/-- Model of the Rust struct `VarInfo` (src/main.rs:27-37). -/
structure VarInfo where
  name : String
  mutable : Bool
  file_path : String
  line_number : Nat
  context : String
  var_kind : String
  var_type : String
  basic_type : String
  scope : String
deriving DecidableEq

/-- Model of the Rust struct `DataStructureInfo` (src/main.rs:72-77). -/
structure DataStructureInfo where
  name : String
  data_structure_type : String
  file_path : String
  line_number : Nat
deriving DecidableEq

/-- Loop body of `extract_mut_parameters` (src/main.rs:1954-1994): scans
`params_part` (`pp`) from offset `si` for occurrences of the text
`mut` followed by a space.  Each iteration advances the offset by at least 4,
so the `line.length + 1` fuel supplied by the wrapper is never exhausted. -/
def empLoopPar (line pp : List Char) (ln : Nat) (fp : String) :
    Nat → Nat → Except Unit (List VarInfo)
  | 0, _ => pure []
  | fuel + 1, si =>
    match findSub (pp.drop si) (String.toList "mut ") with
    | none => pure []
    | some idx =>
      (match (pp.drop (si + idx + 4)).findIdx? isIdentEnd with
        | some e =>
          let pns := si + idx + 4
          let pname := seg pp pns (pns + e)
          let pkind :=
            match (pp.drop pns).findIdx? (· = ':') with
            | some ki =>
              let kstart := pns + ki + 1
              let kend := ((pp.drop kstart).findIdx? (fun c => c = ',' || c = ')')).getD
                (pp.length - kstart)
              trim (seg pp kstart (kstart + kend))
            | none => String.toList "inferred parameter"
          (infer_type_from_context pkind) >>= fun rustType =>
          pure [{ name := String.mk pname, mutable := true, file_path := fp,
                  line_number := ln, context := String.mk line,
                  var_kind := String.mk pkind, var_type := String.mk rustType,
                  basic_type := String.mk (infer_basic_type_from_context line),
                  scope := "" : VarInfo }]
        | none => pure []) >>= fun recHere =>
      empLoopPar line pp ln fp fuel (si + idx + 4) >>= fun restRecs =>
      pure (recHere ++ restRecs)

/-- Model of `extract_mut_parameters` (src/main.rs:1943-1996). -/
def extract_mut_parameters (line : List Char) (ln : Nat) (fp : String) :
    Except Unit (List VarInfo) :=
  match findCharIdx line '(' with
  | none => pure []
  | some ps => empLoopPar line (line.drop ps) ln fp (line.length + 1) 0

/-- Loop body of `extract_mut_patterns` (src/main.rs:2006-2053); same fuel
discipline as `empLoopPar`. -/
def empLoopPat (line : List Char) (ln : Nat) (fp : String) :
    Nat → Nat → List VarInfo
  | 0, _ => []
  | fuel + 1, si =>
    match findSub (line.drop si) (String.toList "mut ") with
    | none => []
    | some idx =>
      let ai := si + idx
      let vns := ai + 4
      let recHere :=
        match (line.drop vns).findIdx? isIdentEnd with
        | some e =>
          [{ name := String.mk (seg line vns (vns + e)), mutable := true, file_path := fp,
             line_number := ln, context := String.mk line,
             var_kind := "pattern matched",
             var_type := String.mk (infer_type_from_pattern line),
             basic_type := String.mk (infer_basic_type_from_context line),
             scope := "" : VarInfo }]
        | none =>
          if !(line.drop vns).isEmpty then
            [{ name := String.mk (line.drop vns), mutable := true, file_path := fp,
               line_number := ln, context := String.mk line,
               var_kind := "pattern matched",
               var_type := String.mk (infer_type_from_pattern line),
               basic_type := String.mk (infer_basic_type_from_context line),
               scope := "" : VarInfo }]
          else []
      recHere ++ empLoopPat line ln fp fuel (ai + 4)

/-- Model of `extract_mut_patterns` (src/main.rs:1999-2054). -/
def extract_mut_patterns (line : List Char) (ln : Nat) (fp : String) : List VarInfo :=
  empLoopPat line ln fp (line.length + 1) 0

/-- The `let mut`/`let` branches of the fallback scanner's per-line body
(src/main.rs:1649-1696); result is (mutable pushes, immutable pushes). -/
def manualLetRecs (line : List Char) (i : Nat) (fp : String) :
    Except Unit (List VarInfo × List VarInfo) :=
  match findSub line (String.toList "let mut ") with
  | some idx =>
    extract_var_name_and_kind line (idx + 8) >>= fun nk =>
    match nk with
    | some (name, varKind) =>
      (if varKind ≠ String.toList "inferred" then infer_type_from_context varKind
       else pure (infer_type_from_initialization line)) >>= fun rustType =>
      pure ([{ name := String.mk name, mutable := true, file_path := fp,
               line_number := i + 1, context := String.mk line,
               var_kind := String.mk varKind, var_type := String.mk rustType,
               basic_type := String.mk (infer_basic_type_from_context line),
               scope := "" : VarInfo }], ([] : List VarInfo))
    | none => pure ([], [])
  | none =>
    match findSub line (String.toList "let ") with
    | some idx =>
      if !startsWithL (line.drop idx) (String.toList "let mut ") then
        extract_var_name_and_kind line (idx + 4) >>= fun nk =>
        match nk with
        | some (name, varKind) =>
          (if varKind ≠ String.toList "inferred" then infer_type_from_context varKind
           else pure (infer_type_from_initialization line)) >>= fun rustType =>
          pure (([] : List VarInfo),
            [{ name := String.mk name, mutable := false, file_path := fp,
               line_number := i + 1, context := String.mk line,
               var_kind := String.mk varKind, var_type := String.mk rustType,
               basic_type := String.mk (infer_basic_type_from_context line),
               scope := "" : VarInfo }])
        | none => pure ([], [])
      else pure ([], [])
    | none => pure ([], [])

/-- The `for mut` branch of the fallback scanner's per-line body
(src/main.rs:1699-1713). -/
def manualForRecs (line : List Char) (i : Nat) (fp : String) :
    Except Unit (List VarInfo) :=
  match findSub line (String.toList "for mut ") with
  | some idx => do
    match ← extract_name_from_for_loop line (idx + 8) with
    | some (name, _) =>
      pure [{ name := String.mk name, mutable := true, file_path := fp,
              line_number := i + 1, context := String.mk line,
              var_kind := "inferred from loop",
              var_type := String.mk (infer_type_from_loop line),
              basic_type := String.mk (infer_basic_type_from_context line),
              scope := "" : VarInfo }]
    | none => pure []
  | none => pure []

/-- The mutable-parameter branch of the fallback scanner's per-line body
(src/main.rs:1716-1718). -/
def manualParRecs (line : List Char) (i : Nat) (fp : String) :
    Except Unit (List VarInfo) :=
  if (containsSub line (String.toList "fn ") || containsSub line (String.toList "pub fn ")) &&
      containsSub line (String.toList "mut ") then
    extract_mut_parameters line (i + 1) fp
  else pure []

/-- The pattern-match branch of the fallback scanner's per-line body
(src/main.rs:1721-1725). -/
def manualPatRecs (line : List Char) (i : Nat) (fp : String) : List VarInfo :=
  if (containsSub line (String.toList "if let ") ||
      containsSub line (String.toList "while let ") ||
      containsSub line (String.toList "match ")) &&
      containsSub line (String.toList "mut ") then
    extract_mut_patterns line (i + 1) fp
  else []

/-- The declaration checks of the fallback scanner's per-line body
(src/main.rs:1728-1762). -/
def manualDeclRecs (line : List Char) (i : Nat) (fp : String) : List DataStructureInfo :=
  (if containsSub line (String.toList "fn ") then
    match extract_data_structure_info line (String.toList "function") (i + 1) with
    | some (n, ln) => [{ name := String.mk n, data_structure_type := "function",
                         file_path := fp, line_number := ln : DataStructureInfo }]
    | none => []
  else []) ++
  (if containsSub line (String.toList "struct ") then
    match extract_data_structure_info line (String.toList "struct") (i + 1) with
    | some (n, ln) => [{ name := String.mk n, data_structure_type := "struct",
                         file_path := fp, line_number := ln : DataStructureInfo }]
    | none => []
  else []) ++
  (if containsSub line (String.toList "enum ") then
    match extract_data_structure_info line (String.toList "enum") (i + 1) with
    | some (n, ln) => [{ name := String.mk n, data_structure_type := "enum",
                         file_path := fp, line_number := ln : DataStructureInfo }]
    | none => []
  else [])

/-- The per-line body of the fallback scanner
`analyse_file_manual_implementation` (src/main.rs:1646-1763), for a line that
is not skipped by the comment/blank handling; `i` is the 0-based line index,
so emitted records carry line number `i + 1`.  The result triple is
(mutable pushes, immutable pushes, declaration pushes) in push order. -/
def manualLine (line : List Char) (i : Nat) (fp : String) :
    Except Unit (List VarInfo × List VarInfo × List DataStructureInfo) := do
  let lr ← manualLetRecs line i fp
  let fr ← manualForRecs line i fp
  let pr ← manualParRecs line i fp
  pure (lr.1 ++ fr ++ pr ++ manualPatRecs line i fp, lr.2, manualDeclRecs line i fp)

/-- The line loop of `analyse_file_manual_implementation`
(src/main.rs:1608-1766): `i` is the 0-based index of the first line of `ls`
and `inml` the "inside a block comment" flag. -/
def manualScanAux (fp : String) :
    List (List Char) → Nat → Bool →
    Except Unit (List VarInfo × List VarInfo × List DataStructureInfo)
  | [], _, _ => pure ([], [], [])
  | line :: rest, i, inml =>
    if startsWithL (trim line) (String.toList "//") then manualScanAux fp rest (i + 1) inml
    else if containsSub (trim line) (String.toList "/*") &&
        !containsSub (trim line) (String.toList "*/") then
      manualScanAux fp rest (i + 1) true
    else if inml then
      (if containsSub (trim line) (String.toList "*/") then manualScanAux fp rest (i + 1) false
       else manualScanAux fp rest (i + 1) true)
    else if (trim line).isEmpty then manualScanAux fp rest (i + 1) inml
    else
      manualLine line i fp >>= fun t1 =>
      manualScanAux fp rest (i + 1) inml >>= fun t2 =>
      pure (t1.1 ++ t2.1, t1.2.1 ++ t2.2.1, t1.2.2 ++ t2.2.2)

/-- Model of `analyse_file_manual_implementation` (src/main.rs:1608-1766),
taking the file content already split into lines. -/
def analyse_file_manual_implementation (lines : List (List Char)) (fp : String) :
    Except Unit (List VarInfo × List VarInfo × List DataStructureInfo) :=
  manualScanAux fp lines 0 false

/-- Subset of `syn::Type` needed by the claims: a path type with its last
segment name and generic type arguments, a reference, and a tuple. -/
inductive RType where
  | path (name : String) (args : List RType)
  | ref (mutable : Bool) (elem : RType)
  | tuple (elems : List RType)

mutual
/-- Model of `format_type` (src/main.rs:112-114), i.e. of
`quote::quote!(#ty).to_string()`: the token text of the type with the
blank-separated token spacing that `proc_macro2` display uses.  A path with
no generic arguments renders as its bare name; no claim depends on the
rendering of the other constructors. -/
def format_type : RType → String
  | .path n args =>
    if args.isEmpty then n
    else n ++ " < " ++ String.intercalate " , " (format_type_list args) ++ " >"
  | .ref m t => "& " ++ (if m then "mut " else "") ++ format_type t
  | .tuple ts =>
    if ts.isEmpty then "()"
    else "(" ++ String.intercalate " , " (format_type_list ts) ++ ")"

/-- Token texts of a list of types, in order. -/
def format_type_list : List RType → List String
  | [] => []
  | t :: ts => format_type t :: format_type_list ts
end

mutual
/-- Model of `extract_basic_type` (src/main.rs:180-250) on the embedded
`RType` subset. -/
def extract_basic_type : RType → String
  | .path seg args =>
    match seg with
    | "i8" | "i16" | "i32" | "i64" | "i128" | "isize" | "u8" | "u16" | "u32"
    | "u64" | "u128" | "usize" | "f32" | "f64" | "bool" | "char" => seg
    | "String" => "String"
    | "Option" =>
      match args with
      | inner :: _ => "Option<" ++ extract_basic_type inner ++ ">"
      | [] => "Option<T>"
    | "Vec" =>
      match args with
      | inner :: _ => "Vec<" ++ extract_basic_type inner ++ ">"
      | [] => "Vec<T>"
    | _ => seg
  | .ref m t => "&" ++ (if m then "mut " else "") ++ extract_basic_type t
  | .tuple ts =>
    if ts.isEmpty then "()"
    else "(" ++ String.intercalate ", " (extract_basic_type_list ts) ++ ")"

/-- Basic-type texts of a list of types, in order. -/
def extract_basic_type_list : List RType → List String
  | [] => []
  | t :: ts => extract_basic_type t :: extract_basic_type_list ts
end

/-- Subset of `syn::Pat` handled by `extract_variables_from_pattern`:
identifier, tuple, tuple-struct, struct, reference, slice, or-pattern, typed
pattern, and a wildcard standing for every unhandled kind (the `_ => {}`
arm). -/
inductive Pat where
  | ident (mutable : Bool) (name : String)
  | tuple (elems : List Pat)
  | tupleStruct (path : String) (elems : List Pat)
  | structP (path : String) (fields : List (String × Pat))
  | ref (mutable : Bool) (inner : Pat)
  | slice (elems : List Pat)
  | orP (cases : List Pat)
  | typed (inner : Pat) (ty : RType)
  | wild

/-- Subset of `syn::Expr` needed by the expression type inferencers. -/
inductive RExpr where
  | litStr
  | litByteStr
  | litByte
  | litChar
  | litInt (suffix : String)
  | litFloat (suffix : String)
  | litBool
  | array
  | callPath (path : String)
  | methodCall (method : String)
  | structE (name : String)
  | refE (mutable : Bool)
  | binArith
  | binLogical
  | binBitwise
  | binCmp
  | matchE
  | ifE
  | unsupported

/-- Model of Rust `str::trim_end_matches(pat)` for a string pattern
(repeatedly removes the suffix). -/
def trimEndMatchesStr (pat s : String) : String :=
  String.mk (trimStartMatchesS pat.toList.reverse s.toList.reverse).reverse

/-- Model of `infer_type_from_expr` (src/main.rs:1457-1573) on the embedded
`RExpr` subset. -/
def infer_type_from_expr : RExpr → String
  | .litStr => "string"
  | .litByteStr => "byte string"
  | .litByte => "byte"
  | .litChar => "character"
  | .litInt suffix =>
    if suffix ≠ "" then
      match suffix with
      | "i8" | "i16" | "i32" | "i64" | "i128" | "isize" => "integer (" ++ suffix ++ ")"
      | "u8" | "u16" | "u32" | "u64" | "u128" | "usize" =>
        "unsigned integer (" ++ suffix ++ ")"
      | _ => "integer"
    else "integer"
  | .litFloat suffix =>
    match suffix with
    | "f32" => "floating-point (f32)"
    | "f64" => "floating-point (f64)"
    | _ => "floating-point"
  | .litBool => "boolean"
  | .array => "array"
  | .callPath p =>
    if endsWithL p.toList (String.toList "::new") then
      match trimEndMatchesStr "::new" p with
      | "Vec" => "vector"
      | "String" => "string"
      | "HashMap" => "hash map"
      | "BTreeMap" => "tree map"
      | tn => tn ++ " instance"
    else "function result"
  | .methodCall m =>
    match m with
    | "iter" => "iterator"
    | "iter_mut" => "mutable iterator"
    | "into_iter" => "owned iterator"
    | "collect" => "collection"
    | "map" => "mapped iterator"
    | "filter" => "filtered iterator"
    | "unwrap" => "unwrapped value"
    | "expect" => "unwrapped value"
    | "clone" => "cloned value"
    | "to_string" => "string"
    | _ => "method result"
  | .structE n => n
  | .refE m => (if m then "mutable " else "") ++ "reference"
  | .binArith => "numeric"
  | .binLogical => "boolean"
  | .binBitwise => "integer"
  | .binCmp => "boolean"
  | .matchE => "match result"
  | .ifE => "conditional result"
  | .unsupported => "expression result"

/-- Model of `infer_basic_type_from_expr` (src/main.rs:1128-1187) on the
embedded `RExpr` subset. -/
def infer_basic_type_from_expr : RExpr → String
  | .litStr => "String"
  | .litByteStr => "Vec<u8>"
  | .litByte => "u8"
  | .litChar => "char"
  | .litInt suffix =>
    match suffix.toList.head? with
    | some 'i' => "integer"
    | some 'u' => "unsigned integer"
    | some _ => "integer"
    | none => "integer"
  | .litFloat _ => "f64"
  | .litBool => "bool"
  | .array => "Array"
  | .callPath p =>
    if endsWithL p.toList (String.toList "::new") then
      "Instance of " ++ trimEndMatchesStr "::new" p
    else "Function call result"
  | .methodCall m =>
    match m with
    | "iter" => "Iterator"
    | "iter_mut" => "Mutable Iterator"
    | "into_iter" => "Owned Iterator"
    | "collect" => "Collection"
    | _ => "Method call result"
  | .structE _ => "Struct instance"
  | .refE m => if m then "Mutable reference" else "Reference"
  | .binArith => "Binary expression result"
  | .binLogical => "Binary expression result"
  | .binBitwise => "Binary expression result"
  | .binCmp => "Binary expression result"
  | .matchE => "Match result"
  | .ifE => "Conditional result"
  | .unsupported => "Unknown expression"

/-- The two output collections: in the source every record is pushed with
`if mutable { self.mutable_vars.push(v) } else { self.immutable_vars.push(v) }`;
this combinator is that push site, returning the pair of pushes
(mutable list, immutable list). -/
def route (v : VarInfo) : List VarInfo × List VarInfo :=
  if v.mutable then ([v], []) else ([], [v])

/-- Result of `Some`/`Ok`/`Err` recognition in the tuple-struct branch of
`extract_variables_from_pattern` (src/main.rs:937-942). -/
def tsHint (path : String) : String :=
  match path with
  | "Some" => "optional value"
  | "Ok" => "success value"
  | "Err" => "error value"
  | _ => ""

mutual
/-- Model of `extract_variables_from_pattern` (src/main.rs:866-1124).  The
per-element loops of the tuple, tuple-struct, struct and slice branches are
the mutually recursive helpers below. -/
def extract_variables_from_pattern (fp sc : String) (pat : Pat) (ty : Option RType)
    (ln : Nat) (ctx : String) : Except Unit (List VarInfo × List VarInfo) :=
  match pat with
  | .ident m name => do
    let varType ←
      match ty with
      | some t => pure (format_type t)
      | none => do
        let r ← infer_type_from_context ctx.toList
        pure (String.mk r)
    let basicType :=
      match ty with
      | some t => extract_basic_type t
      | none => String.mk (infer_basic_type_from_context ctx.toList)
    pure (route
      { name := name, mutable := m, file_path := fp, line_number := ln,
        context := ctx,
        var_kind := if ty.isSome then "explicitly typed pattern" else "pattern match",
        var_type := varType, basic_type := basicType, scope := sc })
  | .tuple elems =>
    evfpTupleElems fp sc elems
      (match ty with
       | some (.tuple ec) => ec.map some
       | _ => []) ln ctx
  | .tupleStruct path elems => evfpTupleStructElems fp sc path elems ln ctx
  | .structP path fields => evfpStructFields fp sc path fields ln ctx
  | .ref rm inner =>
    match inner with
    | .ident m name => do
      let refType : String := if rm then "mutable reference to" else "reference to"
      let baseType ← infer_type_from_context ctx.toList
      pure (route
        { name := name, mutable := m || rm, file_path := fp, line_number := ln,
          context := ctx, var_kind := "reference pattern",
          var_type := refType ++ " " ++ String.mk baseType,
          basic_type := String.mk (infer_basic_type_from_context ctx.toList),
          scope := sc })
    | _ => extract_variables_from_pattern fp sc inner none ln ctx
  | .slice elems => evfpSliceElems fp sc elems ln ctx
  | .orP cases =>
    match cases with
    | [] => pure ([], [])
    | c :: _ => extract_variables_from_pattern fp sc c ty ln ctx
  | .typed inner t => extract_variables_from_pattern fp sc inner (some t) ln ctx
  | .wild => pure ([], [])

/-- The tuple branch loop (src/main.rs:915-926): pairs the i-th element with
`tuple_type.elems.get(i)` and recurses positionally. -/
def evfpTupleElems (fp sc : String) (elems : List Pat) (tys : List (Option RType))
    (ln : Nat) (ctx : String) : Except Unit (List VarInfo × List VarInfo) :=
  match elems with
  | [] => pure ([], [])
  | p :: ps => do
    let r ← extract_variables_from_pattern fp sc p (tys.headD none) ln ctx
    let rest ← evfpTupleElems fp sc ps tys.tail ln ctx
    pure (r.1 ++ rest.1, r.2 ++ rest.2)

/-- The tuple-struct branch loop (src/main.rs:944-978). -/
def evfpTupleStructElems (fp sc path : String) (elems : List Pat) (ln : Nat)
    (ctx : String) : Except Unit (List VarInfo × List VarInfo) :=
  match elems with
  | [] => pure ([], [])
  | e :: es =>
    (match e with
      | .ident m name =>
        (if tsHint path ≠ "" then pure (tsHint path)
         else (infer_type_from_context ctx.toList).map String.mk) >>= fun varType =>
        pure (route
          { name := name, mutable := m, file_path := fp, line_number := ln,
            context := ctx, var_kind := "destructured from " ++ path,
            var_type := varType,
            basic_type := String.mk (infer_basic_type_from_context ctx.toList),
            scope := sc })
      | _ => extract_variables_from_pattern fp sc e none ln ctx) >>= fun r =>
    evfpTupleStructElems fp sc path es ln ctx >>= fun rest =>
    pure (r.1 ++ rest.1, r.2 ++ rest.2)

/-- The struct branch loop (src/main.rs:989-1025). -/
def evfpStructFields (fp sc path : String) (fields : List (String × Pat)) (ln : Nat)
    (ctx : String) : Except Unit (List VarInfo × List VarInfo) :=
  match fields with
  | [] => pure ([], [])
  | fld :: fs =>
    (match fld.2 with
      | .ident m name =>
        pure (route
          { name := name, mutable := m, file_path := fp, line_number := ln,
            context := ctx, var_kind := "destructured from struct " ++ path,
            var_type := "field \x27" ++ fld.1 ++ "\x27 of " ++ path,
            basic_type := String.mk (infer_basic_type_from_context ctx.toList),
            scope := sc })
      | _ => extract_variables_from_pattern fp sc fld.2 none ln ctx) >>= fun r =>
    evfpStructFields fp sc path fs ln ctx >>= fun rest =>
    pure (r.1 ++ rest.1, r.2 ++ rest.2)

/-- The slice branch loop (src/main.rs:1066-1103). -/
def evfpSliceElems (fp sc : String) (elems : List Pat) (ln : Nat) (ctx : String) :
    Except Unit (List VarInfo × List VarInfo) :=
  match elems with
  | [] => pure ([], [])
  | e :: es =>
    (match e with
      | .ident m name =>
        pure (route
          { name := name, mutable := m, file_path := fp, line_number := ln,
            context := ctx, var_kind := "slice pattern",
            var_type := if name.startsWith ".." then "remaining slice elements"
              else "slice element",
            basic_type := String.mk (infer_basic_type_from_context ctx.toList),
            scope := sc })
      | _ => extract_variables_from_pattern fp sc e none ln ctx) >>= fun r =>
    evfpSliceElems fp sc es ln ctx >>= fun rest =>
    pure (r.1 ++ rest.1, r.2 ++ rest.2)
end

/-- Model of a `syn::Local` (`let` statement): its pattern and optional
initializer expression. -/
structure RLocal where
  pat : Pat
  init : Option RExpr

/-- Model of `VariableVisitor::visit_local` (src/main.rs:556-620): the record
pushes made for the `let` statement itself.  `ln` and `ctx` stand for the
line number and context line the visitor computes from the token text; the
subsequent `visit::visit_local` traversal of the initializer emits nothing
for the expression subset modelled here (no nested statements). -/
def visit_local (fp sc : String) (lcl : RLocal) (ln : Nat) (ctx : String) :
    Except Unit (List VarInfo × List VarInfo) :=
  match lcl.pat with
  | .ident m name =>
    let varType := match lcl.init with
      | some e => infer_type_from_expr e
      | none => "inferred"
    let basicType := match lcl.init with
      | some e => infer_basic_type_from_expr e
      | none => String.mk (infer_basic_type_from_context ctx.toList)
    pure (route
      { name := name, mutable := m, file_path := fp, line_number := ln,
        context := ctx, var_kind := "inferred from initialization",
        var_type := varType, basic_type := basicType, scope := sc })
  | .typed inner t => extract_variables_from_pattern fp sc inner (some t) ln ctx
  | p => extract_variables_from_pattern fp sc p none ln ctx

/-- Model of `syn::FnArg`: a receiver (`self`) or a typed pattern. -/
inductive FnArg where
  | receiver
  | typed (pat : Pat) (ty : RType)

/-- Token text of a pattern as rendered inside `quote!` (only the identifier
case is ever reached by `visit_fn_arg`). -/
def patTokens : Pat → String
  | .ident m n => (if m then "mut " else "") ++ n
  | _ => ""

/-- Model of `VariableVisitor::visit_fn_arg` (src/main.rs:623-656): only a
typed argument whose pattern is a mutable identifier produces a record, and
that record goes to the mutable collection.  The `var_kind` reproduces
`format!("function parameter: {}", quote::quote!(#pat_type.ty))`, which
renders the whole `pat_type` followed by the tokens `. ty`. -/
def visit_fn_arg (fp sc : String) (arg : FnArg) (ln : Nat) (ctx : String) : List VarInfo :=
  match arg with
  | .receiver => []
  | .typed pat ty =>
    match pat with
    | .ident true name =>
      [{ name := name, mutable := true, file_path := fp, line_number := ln, context := ctx,
         var_kind := "function parameter: " ++ patTokens (Pat.ident true name) ++ " : " ++
           format_type ty ++ " . ty",
         var_type := format_type ty, basic_type := extract_basic_type ty, scope := sc }]
    | _ => []

/-- The records contributed by visiting every argument of one function
signature, in order. -/
def visit_fn_args (fp sc : String) (args : List FnArg) (ln : Nat) (ctx : String) :
    List VarInfo :=
  (args.map (fun a => visit_fn_arg fp sc a ln ctx)).join

/-- Model of Rust `token_str.lines().next()`: the first line, `none` for the
empty string, with a single trailing carriage return stripped. -/
def firstLine (token : List Char) : Option (List Char) :=
  if token.isEmpty then none
  else
    let l := token.takeWhile (· ≠ '\n')
    some (match l.getLast? with
      | some '\r' => l.dropLast
      | _ => l)

/-- The span-comment attempt at the top of `get_line_number`
(src/main.rs:806-815): parse a leading `// N:C` from the token text's first
line; the result is `none` when the chain or the parse fails, in which case
the Rust code falls through to the textual search. -/
def spanCommentParse (token : List Char) : Option Nat :=
  match firstLine token with
  | none => none
  | some l =>
    match stripPre (trim l) (String.toList "// ") with
    | none => none
    | some spanInfo =>
      match splitOnceChar ':' spanInfo with
      | none => none
      | some pr => parseUsize pr.1

/-- Model of `local_span_to_line_number` (src/main.rs:1190-1200). -/
def local_span_to_line_number (token : List Char) : Option Nat :=
  match findSub token (String.toList "bytes(") with
  | none => none
  | some bi =>
    match findCharIdx (token.drop bi) ':' with
    | none => none
    | some le => parseUsize (seg token (bi + 6) (bi + le))

/-- The per-line match test of the `get_line_number` search loop
(src/main.rs:820-854): assignment-shape, annotation-shape or whole-word
match, followed by the ten-character last-resort check. -/
def lineMatches (content line : List Char) : Bool :=
  (if containsChar content '=' then
    containsSub line (trim (content.takeWhile (· ≠ '='))) && containsChar line '='
  else if containsChar content ':' && !containsChar content '\x7b' then
    containsSub line (trim (content.takeWhile (· ≠ ':'))) && containsChar line ':'
  else
    (wsplit content).any (fun w => decide (2 < w.length) && containsSub line w &&
      (wsplit line).any (fun lw => lw == w)))
  || (decide (10 < content.length) && containsSub line (content.take (Nat.min content.length 10)))

/-- The line search loop of `get_line_number`: first matching line wins,
reported as the 1-based index `idx + 1`. -/
def searchLines (content : List Char) : List (List Char) → Nat → Option Nat
  | [], _ => none
  | l :: ls, idx =>
    if lineMatches content l then some (idx + 1) else searchLines content ls (idx + 1)

/-- Model of `VariableVisitor::get_line_number` (src/main.rs:804-864):
span-comment parse, then the textual search over the file's lines (skipped
for an all-whitespace token), then `local_span_to_line_number`, then the
default 1. -/
def get_line_number (lines : List (List Char)) (token : List Char) : Nat :=
  match spanCommentParse token with
  | some n => n
  | none =>
    let content := trim token
    match (if content.isEmpty then none else searchLines content lines 0) with
    | some j => j
    | none =>
      match local_span_to_line_number token with
      | some n => n
      | none => 1

/-- Model of the Rust struct `AnalysisResults` (src/main.rs:317-321). -/
structure AnalysisResults where
  mutable_vars : List VarInfo
  immutable_vars : List VarInfo
  data_structures : List DataStructureInfo

/-- The comparator of the sort flag (src/main.rs:428-429):
`a.name.cmp(&b.name)` as the order `a.name ≤ b.name`. -/
def byName (a b : VarInfo) : Prop :=
  a.name ≤ b.name

instance : DecidableRel byName :=
  fun a b => inferInstanceAs (Decidable (a.name ≤ b.name))

instance : IsTotal VarInfo byName :=
  ⟨fun a b => le_total a.name b.name⟩

instance : IsTrans VarInfo byName :=
  ⟨fun _ _ _ h1 h2 => le_trans h1 h2⟩

/-- Model of the sort flag applied in `main` (src/main.rs:427-430):
`Vec::sort_by` is documented as a stable sort, and a stable sort by a total
preorder is uniquely determined by its input, so the stable
`List.insertionSort` by name models it exactly; `data_structures` is not
sorted. -/
def applySort (r : AnalysisResults) : AnalysisResults :=
  { r with mutable_vars := List.insertionSort byName r.mutable_vars,
           immutable_vars := List.insertionSort byName r.immutable_vars }

/-- The routing invariant of the two output collections: every record in the
first (mutable) list has `mutable = true`, every record in the second
(immutable) list has `mutable = false`. -/
def PartitionOK (res : List VarInfo × List VarInfo) : Prop :=
  (∀ v ∈ res.1, v.mutable = true) ∧ (∀ v ∈ res.2, v.mutable = false)

theorem partition_nil : PartitionOK ([], []) :=
  ⟨by simp, by simp⟩

theorem route_partition (v : VarInfo) : PartitionOK (route v) := by
  cases hb : v.mutable <;> simp [route, PartitionOK, hb]

theorem partition_append {a b : List VarInfo × List VarInfo}
    (ha : PartitionOK a) (hb : PartitionOK b) :
    PartitionOK (a.1 ++ b.1, a.2 ++ b.2) := by
  constructor
  · intro v hv
    rcases List.mem_append.mp hv with h | h
    · exact ha.1 v h
    · exact hb.1 v h
  · intro v hv
    rcases List.mem_append.mp hv with h | h
    · exact ha.2 v h
    · exact hb.2 v h

theorem except_bind_ok {α β : Type} {x : Except Unit α} {f : α → Except Unit β} {b : β}
    (h : (x >>= f) = .ok b) : ∃ a, x = .ok a ∧ f a = .ok b := by
  cases x with
  | error e => simp [Bind.bind, Except.bind] at h
  | ok a =>
    refine ⟨a, rfl, ?_⟩
    simpa [Bind.bind, Except.bind] using h

mutual
theorem evfp_partition :
    ∀ (fp sc : String) (pat : Pat) (ty : Option RType) (ln : Nat) (ctx : String)
      (res : List VarInfo × List VarInfo),
      extract_variables_from_pattern fp sc pat ty ln ctx = .ok res → PartitionOK res
  | fp, sc, .ident m name, ty, ln, ctx, res, h => by
    unfold extract_variables_from_pattern at h
    cases ty with
    | some t =>
      simp [Bind.bind, Except.bind, pure, Except.pure] at h
      rw [← h]
      exact route_partition _
    | none =>
      cases hic : infer_type_from_context ctx.data with
      | error e =>
        simp [hic, Bind.bind, Except.bind] at h
      | ok r =>
        simp [hic, Bind.bind, Except.bind, pure, Except.pure] at h
        rw [← h]
        exact route_partition _
  | fp, sc, .tuple elems, ty, ln, ctx, res, h => by
    unfold extract_variables_from_pattern at h
    exact evfpTupleElems_partition fp sc elems _ ln ctx res h
  | fp, sc, .tupleStruct path elems, ty, ln, ctx, res, h => by
    unfold extract_variables_from_pattern at h
    exact evfpTupleStructElems_partition fp sc path elems ln ctx res h
  | fp, sc, .structP path fields, ty, ln, ctx, res, h => by
    unfold extract_variables_from_pattern at h
    exact evfpStructFields_partition fp sc path fields ln ctx res h
  | fp, sc, .ref rm inner, ty, ln, ctx, res, h => by
    unfold extract_variables_from_pattern at h
    cases inner with
    | ident m name =>
      cases hic : infer_type_from_context ctx.data with
      | error e =>
        simp [hic, Bind.bind, Except.bind] at h
      | ok r =>
        simp [hic, Bind.bind, Except.bind, pure, Except.pure] at h
        rw [← h]
        exact route_partition _
    | tuple es => exact evfp_partition fp sc (.tuple es) none ln ctx res h
    | tupleStruct p2 es => exact evfp_partition fp sc (.tupleStruct p2 es) none ln ctx res h
    | structP p2 fs => exact evfp_partition fp sc (.structP p2 fs) none ln ctx res h
    | ref m2 i2 => exact evfp_partition fp sc (.ref m2 i2) none ln ctx res h
    | slice es => exact evfp_partition fp sc (.slice es) none ln ctx res h
    | orP cs => exact evfp_partition fp sc (.orP cs) none ln ctx res h
    | typed i2 t2 => exact evfp_partition fp sc (.typed i2 t2) none ln ctx res h
    | wild => exact evfp_partition fp sc .wild none ln ctx res h
  | fp, sc, .slice elems, ty, ln, ctx, res, h => by
    unfold extract_variables_from_pattern at h
    exact evfpSliceElems_partition fp sc elems ln ctx res h
  | fp, sc, .orP cases_, ty, ln, ctx, res, h => by
    unfold extract_variables_from_pattern at h
    cases cases_ with
    | nil =>
      simp [pure, Except.pure] at h
      rw [← h]
      exact partition_nil
    | cons c cs => exact evfp_partition fp sc c ty ln ctx res h
  | fp, sc, .typed inner t, ty, ln, ctx, res, h => by
    unfold extract_variables_from_pattern at h
    exact evfp_partition fp sc inner (some t) ln ctx res h
  | fp, sc, .wild, ty, ln, ctx, res, h => by
    unfold extract_variables_from_pattern at h
    simp [pure, Except.pure] at h
    rw [← h]
    exact partition_nil

theorem evfpTupleElems_partition :
    ∀ (fp sc : String) (elems : List Pat) (tys : List (Option RType)) (ln : Nat)
      (ctx : String) (res : List VarInfo × List VarInfo),
      evfpTupleElems fp sc elems tys ln ctx = .ok res → PartitionOK res
  | fp, sc, [], tys, ln, ctx, res, h => by
    unfold evfpTupleElems at h
    simp [pure, Except.pure] at h
    rw [← h]
    exact partition_nil
  | fp, sc, p :: ps, tys, ln, ctx, res, h => by
    unfold evfpTupleElems at h
    obtain ⟨r, hr, h2⟩ := except_bind_ok h
    obtain ⟨rest, hrest, h3⟩ := except_bind_ok h2
    simp [pure, Except.pure] at h3
    rw [← h3]
    exact partition_append (evfp_partition fp sc p (tys.headD none) ln ctx r hr)
      (evfpTupleElems_partition fp sc ps tys.tail ln ctx rest hrest)

theorem evfpTupleStructElems_partition :
    ∀ (fp sc path : String) (elems : List Pat) (ln : Nat) (ctx : String)
      (res : List VarInfo × List VarInfo),
      evfpTupleStructElems fp sc path elems ln ctx = .ok res → PartitionOK res
  | fp, sc, path, [], ln, ctx, res, h => by
    unfold evfpTupleStructElems at h
    simp [pure, Except.pure] at h
    rw [← h]
    exact partition_nil
  | fp, sc, path, e :: es, ln, ctx, res, h => by
    unfold evfpTupleStructElems at h
    obtain ⟨r, hr, h2⟩ := except_bind_ok h
    obtain ⟨rest, hrest, h3⟩ := except_bind_ok h2
    simp [pure, Except.pure] at h3
    rw [← h3]
    refine partition_append ?_
      (evfpTupleStructElems_partition fp sc path es ln ctx rest hrest)
    cases e with
    | ident m name =>
      by_cases hh : tsHint path ≠ ""
      · simp [hh, Bind.bind, Except.bind, pure, Except.pure] at hr
        rw [← hr]
        exact route_partition _
      · cases hic : infer_type_from_context ctx.data with
        | error e2 =>
          simp [hh, hic, Except.map, Bind.bind, Except.bind] at hr
        | ok r2 =>
          simp [hh, hic, Except.map, Bind.bind, Except.bind, pure, Except.pure] at hr
          rw [← hr]
          exact route_partition _
    | tuple es2 => exact evfp_partition fp sc (.tuple es2) none ln ctx r hr
    | tupleStruct p2 es2 => exact evfp_partition fp sc (.tupleStruct p2 es2) none ln ctx r hr
    | structP p2 fs2 => exact evfp_partition fp sc (.structP p2 fs2) none ln ctx r hr
    | ref m2 i2 => exact evfp_partition fp sc (.ref m2 i2) none ln ctx r hr
    | slice es2 => exact evfp_partition fp sc (.slice es2) none ln ctx r hr
    | orP cs2 => exact evfp_partition fp sc (.orP cs2) none ln ctx r hr
    | typed i2 t2 => exact evfp_partition fp sc (.typed i2 t2) none ln ctx r hr
    | wild => exact evfp_partition fp sc .wild none ln ctx r hr

theorem evfpStructFields_partition :
    ∀ (fp sc path : String) (fields : List (String × Pat)) (ln : Nat) (ctx : String)
      (res : List VarInfo × List VarInfo),
      evfpStructFields fp sc path fields ln ctx = .ok res → PartitionOK res
  | fp, sc, path, [], ln, ctx, res, h => by
    unfold evfpStructFields at h
    simp [pure, Except.pure] at h
    rw [← h]
    exact partition_nil
  | fp, sc, path, fld :: fs, ln, ctx, res, h => by
    unfold evfpStructFields at h
    obtain ⟨r, hr, h2⟩ := except_bind_ok h
    obtain ⟨rest, hrest, h3⟩ := except_bind_ok h2
    simp [pure, Except.pure] at h3
    rw [← h3]
    refine partition_append ?_
      (evfpStructFields_partition fp sc path fs ln ctx rest hrest)
    cases hf : fld.2 with
    | ident m name =>
      rw [hf] at hr
      simp [pure, Except.pure] at hr
      rw [← hr]
      exact route_partition _
    | tuple es2 =>
      rw [hf] at hr
      exact evfp_partition fp sc fld.2 none ln ctx r (by rw [hf]; exact hr)
    | tupleStruct p2 es2 =>
      rw [hf] at hr
      exact evfp_partition fp sc fld.2 none ln ctx r (by rw [hf]; exact hr)
    | structP p2 fs2 =>
      rw [hf] at hr
      exact evfp_partition fp sc fld.2 none ln ctx r (by rw [hf]; exact hr)
    | ref m2 i2 =>
      rw [hf] at hr
      exact evfp_partition fp sc fld.2 none ln ctx r (by rw [hf]; exact hr)
    | slice es2 =>
      rw [hf] at hr
      exact evfp_partition fp sc fld.2 none ln ctx r (by rw [hf]; exact hr)
    | orP cs2 =>
      rw [hf] at hr
      exact evfp_partition fp sc fld.2 none ln ctx r (by rw [hf]; exact hr)
    | typed i2 t2 =>
      rw [hf] at hr
      exact evfp_partition fp sc fld.2 none ln ctx r (by rw [hf]; exact hr)
    | wild =>
      rw [hf] at hr
      exact evfp_partition fp sc fld.2 none ln ctx r (by rw [hf]; exact hr)

theorem evfpSliceElems_partition :
    ∀ (fp sc : String) (elems : List Pat) (ln : Nat) (ctx : String)
      (res : List VarInfo × List VarInfo),
      evfpSliceElems fp sc elems ln ctx = .ok res → PartitionOK res
  | fp, sc, [], ln, ctx, res, h => by
    unfold evfpSliceElems at h
    simp [pure, Except.pure] at h
    rw [← h]
    exact partition_nil
  | fp, sc, e :: es, ln, ctx, res, h => by
    unfold evfpSliceElems at h
    obtain ⟨r, hr, h2⟩ := except_bind_ok h
    obtain ⟨rest, hrest, h3⟩ := except_bind_ok h2
    simp [pure, Except.pure] at h3
    rw [← h3]
    refine partition_append ?_ (evfpSliceElems_partition fp sc es ln ctx rest hrest)
    cases e with
    | ident m name =>
      simp [pure, Except.pure] at hr
      rw [← hr]
      exact route_partition _
    | tuple es2 => exact evfp_partition fp sc (.tuple es2) none ln ctx r hr
    | tupleStruct p2 es2 => exact evfp_partition fp sc (.tupleStruct p2 es2) none ln ctx r hr
    | structP p2 fs2 => exact evfp_partition fp sc (.structP p2 fs2) none ln ctx r hr
    | ref m2 i2 => exact evfp_partition fp sc (.ref m2 i2) none ln ctx r hr
    | slice es2 => exact evfp_partition fp sc (.slice es2) none ln ctx r hr
    | orP cs2 => exact evfp_partition fp sc (.orP cs2) none ln ctx r hr
    | typed i2 t2 => exact evfp_partition fp sc (.typed i2 t2) none ln ctx r hr
    | wild => exact evfp_partition fp sc .wild none ln ctx r hr
end

theorem visit_local_partition (fp sc : String) (lcl : RLocal) (ln : Nat) (ctx : String)
    (res : List VarInfo × List VarInfo) (h : visit_local fp sc lcl ln ctx = .ok res) :
    PartitionOK res := by
  unfold visit_local at h
  cases hp : lcl.pat with
  | ident m name =>
    rw [hp] at h
    simp [pure, Except.pure] at h
    rw [← h]
    exact route_partition _
  | tuple es => rw [hp] at h; exact evfp_partition fp sc (.tuple es) none ln ctx res h
  | tupleStruct p2 es => rw [hp] at h; exact evfp_partition fp sc (.tupleStruct p2 es) none ln ctx res h
  | structP p2 fs => rw [hp] at h; exact evfp_partition fp sc (.structP p2 fs) none ln ctx res h
  | ref m2 i2 => rw [hp] at h; exact evfp_partition fp sc (.ref m2 i2) none ln ctx res h
  | slice es => rw [hp] at h; exact evfp_partition fp sc (.slice es) none ln ctx res h
  | orP cs => rw [hp] at h; exact evfp_partition fp sc (.orP cs) none ln ctx res h
  | typed inner t => rw [hp] at h; exact evfp_partition fp sc inner (some t) ln ctx res h
  | wild => rw [hp] at h; exact evfp_partition fp sc .wild none ln ctx res h

theorem empLoopPat_mem (line : List Char) (ln : Nat) (fp : String) :
    ∀ fuel si v, v ∈ empLoopPat line ln fp fuel si →
      v.mutable = true ∧ v.line_number = ln := by
  intro fuel
  induction fuel with
  | zero => intro si v hv; simp [empLoopPat] at hv
  | succ n ih =>
    intro si v hv
    unfold empLoopPat at hv
    cases hf : findSub (line.drop si) (String.toList "mut ") with
    | none => rw [hf] at hv; simp at hv
    | some idx =>
      rw [hf] at hv
      rcases List.mem_append.mp hv with hv1 | hv1
      · cases he : (line.drop (si + idx + 4)).findIdx? isIdentEnd with
        | some e =>
          rw [he] at hv1
          simp at hv1
          rw [hv1]
          exact ⟨rfl, rfl⟩
        | none =>
          rw [he] at hv1
          by_cases hne : !(line.drop (si + idx + 4)).isEmpty
          · rw [if_pos hne] at hv1
            simp at hv1
            rw [hv1]
            exact ⟨rfl, rfl⟩
          · rw [if_neg hne] at hv1
            simp at hv1
      · exact ih (si + idx + 4) v hv1

theorem extract_mut_patterns_mem (line : List Char) (ln : Nat) (fp : String) :
    ∀ v ∈ extract_mut_patterns line ln fp, v.mutable = true ∧ v.line_number = ln :=
  fun v hv => empLoopPat_mem line ln fp (line.length + 1) 0 v hv

theorem empLoopPar_mem (line pp : List Char) (ln : Nat) (fp : String) :
    ∀ fuel si out, empLoopPar line pp ln fp fuel si = .ok out →
      ∀ v ∈ out, v.mutable = true ∧ v.line_number = ln := by
  intro fuel
  induction fuel with
  | zero =>
    intro si out h v hv
    simp [empLoopPar, pure, Except.pure] at h
    rw [h] at hv
    simp at hv
  | succ n ih =>
    intro si out h v hv
    unfold empLoopPar at h
    cases hf : findSub (pp.drop si) (String.toList "mut ") with
    | none =>
      rw [hf] at h
      simp [pure, Except.pure] at h
      rw [h] at hv
      simp at hv
    | some idx =>
      rw [hf] at h
      obtain ⟨recHere, hrec, h2⟩ := except_bind_ok h
      obtain ⟨restRecs, hrest, h3⟩ := except_bind_ok h2
      simp [pure, Except.pure] at h3
      rw [← h3] at hv
      rcases List.mem_append.mp hv with hv1 | hv1
      · cases he : (pp.drop (si + idx + 4)).findIdx? isIdentEnd with
        | some e =>
          rw [he] at hrec
          obtain ⟨rt, hrt, h4⟩ := except_bind_ok hrec
          simp [pure, Except.pure] at h4
          rw [← h4] at hv1
          simp at hv1
          rw [hv1]
          exact ⟨rfl, rfl⟩
        | none =>
          rw [he] at hrec
          simp [pure, Except.pure] at hrec
          rw [hrec] at hv1
          simp at hv1
      · exact ih (si + idx + 4) restRecs hrest v hv1

theorem extract_mut_parameters_mem (line : List Char) (ln : Nat) (fp : String)
    (out : List VarInfo) (h : extract_mut_parameters line ln fp = .ok out) :
    ∀ v ∈ out, v.mutable = true ∧ v.line_number = ln := by
  unfold extract_mut_parameters at h
  cases hf : findCharIdx line '(' with
  | none =>
    rw [hf] at h
    simp [pure, Except.pure] at h
    rw [h]
    simp
  | some ps =>
    rw [hf] at h
    exact empLoopPar_mem line (line.drop ps) ln fp (line.length + 1) 0 out h

theorem manualLetRecs_mem (line : List Char) (i : Nat) (fp : String)
    (ab : List VarInfo × List VarInfo) (h : manualLetRecs line i fp = .ok ab) :
    (∀ v ∈ ab.1, v.mutable = true ∧ v.line_number = i + 1) ∧
    (∀ v ∈ ab.2, v.mutable = false ∧ v.line_number = i + 1) := by
  unfold manualLetRecs at h
  split at h
  · obtain ⟨x, hx, h2⟩ := except_bind_ok h
    cases x with
    | some pr =>
      obtain ⟨name, varKind⟩ := pr
      obtain ⟨rt, hrt, h3⟩ := except_bind_ok h2
      simp [pure, Except.pure] at h3
      rw [← h3]
      constructor
      · intro v hv
        simp at hv
        rw [hv]
        exact ⟨rfl, rfl⟩
      · intro v hv
        simp at hv
    | none =>
      simp [pure, Except.pure] at h2
      rw [← h2]
      exact ⟨by simp, by simp⟩
  · split at h
    · split at h
      · obtain ⟨x, hx, h2⟩ := except_bind_ok h
        cases x with
        | some pr =>
          obtain ⟨name, varKind⟩ := pr
          obtain ⟨rt, hrt, h3⟩ := except_bind_ok h2
          simp [pure, Except.pure] at h3
          rw [← h3]
          constructor
          · intro v hv
            simp at hv
          · intro v hv
            simp at hv
            rw [hv]
            exact ⟨rfl, rfl⟩
        | none =>
          simp [pure, Except.pure] at h2
          rw [← h2]
          exact ⟨by simp, by simp⟩
      · simp [pure, Except.pure] at h
        rw [← h]
        exact ⟨by simp, by simp⟩
    · simp [pure, Except.pure] at h
      rw [← h]
      exact ⟨by simp, by simp⟩

theorem manualForRecs_mem (line : List Char) (i : Nat) (fp : String)
    (out : List VarInfo) (h : manualForRecs line i fp = .ok out) :
    ∀ v ∈ out, v.mutable = true ∧ v.line_number = i + 1 := by
  unfold manualForRecs at h
  cases h1 : findSub line (String.toList "for mut ") with
  | some idx =>
    rw [h1] at h
    obtain ⟨x, hx, h2⟩ := except_bind_ok h
    cases x with
    | some pr =>
      obtain ⟨name, k⟩ := pr
      simp [pure, Except.pure] at h2
      rw [← h2]
      intro v hv
      simp at hv
      rw [hv]
      exact ⟨rfl, rfl⟩
    | none =>
      simp [pure, Except.pure] at h2
      rw [h2]
      simp
  | none =>
    rw [h1] at h
    simp [pure, Except.pure] at h
    rw [h]
    simp

theorem manualParRecs_mem (line : List Char) (i : Nat) (fp : String)
    (out : List VarInfo) (h : manualParRecs line i fp = .ok out) :
    ∀ v ∈ out, v.mutable = true ∧ v.line_number = i + 1 := by
  unfold manualParRecs at h
  split at h
  · exact extract_mut_parameters_mem line (i + 1) fp out h
  · simp [pure, Except.pure] at h
    rw [h]
    simp

theorem manualPatRecs_mem (line : List Char) (i : Nat) (fp : String) :
    ∀ v ∈ manualPatRecs line i fp, v.mutable = true ∧ v.line_number = i + 1 := by
  unfold manualPatRecs
  split
  · exact extract_mut_patterns_mem line (i + 1) fp
  · simp

theorem extract_data_structure_info_ln {line dsType : List Char} {ln : Nat}
    {n : List Char} {ln2 : Nat}
    (h : extract_data_structure_info line dsType ln = some (n, ln2)) : ln2 = ln := by
  unfold extract_data_structure_info at h
  split at h
  · simp at h
  · split at h
    · split at h
      · simp at h
        exact h.2.symm
      · simp at h
    · split at h
      · simp at h
        exact h.2.symm
      · simp at h

theorem declIf_mem {line : List Char} {i : Nat} {fp : String} {cond : Bool}
    {kw : List Char} {tag : String} {d : DataStructureInfo}
    (hd : d ∈ (if cond then
        match extract_data_structure_info line kw (i + 1) with
        | some (n, ln) => [{ name := String.mk n, data_structure_type := tag,
                             file_path := fp, line_number := ln : DataStructureInfo }]
        | none => []
      else [])) : d.line_number = i + 1 := by
  split at hd
  · cases h2 : extract_data_structure_info line kw (i + 1) with
    | some pr =>
      rw [h2] at hd
      obtain ⟨n2, ln2⟩ := pr
      simp at hd
      rw [hd]
      simpa using extract_data_structure_info_ln h2
    | none =>
      rw [h2] at hd
      simp at hd
  · simp at hd

theorem manualDeclRecs_mem (line : List Char) (i : Nat) (fp : String) :
    ∀ d ∈ manualDeclRecs line i fp, d.line_number = i + 1 := by
  intro d hd
  unfold manualDeclRecs at hd
  rcases List.mem_append.mp hd with hd1 | hd1
  · rcases List.mem_append.mp hd1 with hd2 | hd2
    · exact declIf_mem hd2
    · exact declIf_mem hd2
  · exact declIf_mem hd1

theorem manualLine_mem (line : List Char) (i : Nat) (fp : String)
    (res : List VarInfo × List VarInfo × List DataStructureInfo)
    (h : manualLine line i fp = .ok res) :
    (∀ v ∈ res.1, v.mutable = true ∧ v.line_number = i + 1) ∧
    (∀ v ∈ res.2.1, v.mutable = false ∧ v.line_number = i + 1) ∧
    (∀ d ∈ res.2.2, d.line_number = i + 1) := by
  unfold manualLine at h
  obtain ⟨lr, hlr, h2⟩ := except_bind_ok h
  obtain ⟨fr, hfr, h3⟩ := except_bind_ok h2
  obtain ⟨pr, hpr, h4⟩ := except_bind_ok h3
  simp [pure, Except.pure] at h4
  rw [← h4]
  have hl := manualLetRecs_mem line i fp lr hlr
  refine ⟨?_, hl.2, manualDeclRecs_mem line i fp⟩
  intro v hv
  rcases List.mem_append.mp hv with hv1 | hv1
  · exact hl.1 v hv1
  · rcases List.mem_append.mp hv1 with hv2 | hv2
    · exact manualForRecs_mem line i fp fr hfr v hv2
    · rcases List.mem_append.mp hv2 with hv3 | hv3
      · exact manualParRecs_mem line i fp pr hpr v hv3
      · exact manualPatRecs_mem line i fp v hv3

theorem manualScanAux_mem (fp : String) :
    ∀ (ls : List (List Char)) (i : Nat) (inml : Bool)
      (res : List VarInfo × List VarInfo × List DataStructureInfo),
      manualScanAux fp ls i inml = .ok res →
      (∀ v ∈ res.1, 1 ≤ v.line_number) ∧ (∀ v ∈ res.2.1, 1 ≤ v.line_number) ∧
      (∀ d ∈ res.2.2, 1 ≤ d.line_number)
  | [], i, inml, res, h => by
    unfold manualScanAux at h
    simp [pure, Except.pure] at h
    rw [← h]
    exact ⟨by simp, by simp, by simp⟩
  | line :: rest, i, inml, res, h => by
    unfold manualScanAux at h
    split at h
    · exact manualScanAux_mem fp rest (i + 1) inml res h
    · split at h
      · exact manualScanAux_mem fp rest (i + 1) true res h
      · split at h
        · split at h
          · exact manualScanAux_mem fp rest (i + 1) false res h
          · exact manualScanAux_mem fp rest (i + 1) true res h
        · split at h
          · exact manualScanAux_mem fp rest (i + 1) inml res h
          · obtain ⟨t1, ht1, h2⟩ := except_bind_ok h
            obtain ⟨t2, ht2, h3⟩ := except_bind_ok h2
            simp [pure, Except.pure] at h3
            rw [← h3]
            have hline := manualLine_mem line i fp t1 ht1
            have hrest := manualScanAux_mem fp rest (i + 1) inml t2 ht2
            refine ⟨?_, ?_, ?_⟩
            · intro v hv
              rcases List.mem_append.mp hv with hv1 | hv1
              · have := (hline.1 v hv1).2
                omega
              · exact hrest.1 v hv1
            · intro v hv
              rcases List.mem_append.mp hv with hv1 | hv1
              · have := (hline.2.1 v hv1).2
                omega
              · exact hrest.2.1 v hv1
            · intro d hd
              rcases List.mem_append.mp hd with hd1 | hd1
              · have := hline.2.2 d hd1
                omega
              · exact hrest.2.2 d hd1
  termination_by ls _ _ _ _ => ls.length

theorem searchLines_one_le (content : List Char) :
    ∀ (ls : List (List Char)) (i j : Nat), searchLines content ls i = some j → 1 ≤ j
  | [], i, j, h => by simp [searchLines] at h
  | l :: ls, i, j, h => by
    unfold searchLines at h
    split at h
    · simp at h
      omega
    · exact searchLines_one_le content ls (i + 1) j h

theorem filter_orderedInsert_of_ne (x : VarInfo) (n : String) (h : ¬x.name = n) :
    ∀ l : List VarInfo,
      (List.orderedInsert byName x l).filter (fun v => v.name == n) =
        l.filter (fun v => v.name == n)
  | [] => by simp [List.orderedInsert, h]
  | y :: ys => by
    unfold List.orderedInsert
    split
    · rw [List.filter_cons, List.filter_cons]
      simp [h]
    · rw [List.filter_cons, List.filter_cons, filter_orderedInsert_of_ne x n h ys]

theorem filter_orderedInsert_of_eq (x : VarInfo) (n : String) (h : x.name = n) :
    ∀ l : List VarInfo,
      (List.orderedInsert byName x l).filter (fun v => v.name == n) =
        x :: l.filter (fun v => v.name == n)
  | [] => by simp [List.orderedInsert, h]
  | y :: ys => by
    unfold List.orderedInsert
    split
    · rw [List.filter_cons]
      simp [h]
    · rename_i hxy
      have hy : ¬y.name = n := by
        intro he
        exact hxy (le_of_eq (h.trans he.symm))
      rw [List.filter_cons, List.filter_cons]
      simp only [hy, decide_eq_true_eq, beq_iff_eq, if_false]
      rw [filter_orderedInsert_of_eq x n h ys]

theorem filter_insertionSort (n : String) :
    ∀ l : List VarInfo,
      (List.insertionSort byName l).filter (fun v => v.name == n) =
        l.filter (fun v => v.name == n)
  | [] => rfl
  | x :: xs => by
    by_cases h : x.name = n
    · rw [List.insertionSort, filter_orderedInsert_of_eq x n h,
        filter_insertionSort n xs, List.filter_cons]
      simp [h]
    · rw [List.insertionSort, filter_orderedInsert_of_ne x n h,
        filter_insertionSort n xs, List.filter_cons]
      simp [h]

/-- C1 (counterexample): for `let (a, b): (i32, String) = get();` the two
records are produced, but their `var_type` fields are the raw token texts
"i32" and "String" rendered by `format_type`, not the canonical labels
"integer (i32)" and "owned string" the claim states. -/
theorem c1_counterexample :
    Except.map (fun r => r.2.map VarInfo.var_type)
        (extract_variables_from_pattern "f.rs" ""
          (Pat.tuple [Pat.ident false "a", Pat.ident false "b"])
          (some (RType.tuple [RType.path "i32" [], RType.path "String" []])) 3
          "let (a, b): (i32, String) = get();") = .ok ["i32", "String"] ∧
    ¬(["i32", "String"] = ["integer (i32)", "owned string"]) :=
  ⟨rfl, by decide⟩

/-- C1 (amended): for a tuple-destructuring let binding with an explicit
tuple type annotation, `let (a, b): (i32, String) = ...;`, the tree-path
extraction produces exactly two Binding Records, named `a` and `b`, both
immutable, whose `var_type` fields are the raw annotation token texts
"i32" and "String" as rendered by `format_type` (the canonical labels of
`infer_type_from_expr` are not consulted on this path). -/
theorem c1_amended :
    extract_variables_from_pattern "f.rs" ""
        (Pat.tuple [Pat.ident false "a", Pat.ident false "b"])
        (some (RType.tuple [RType.path "i32" [], RType.path "String" []])) 3
        "let (a, b): (i32, String) = get();" =
      .ok ([],
        [{ name := "a", mutable := false, file_path := "f.rs", line_number := 3,
           context := "let (a, b): (i32, String) = get();",
           var_kind := "explicitly typed pattern", var_type := "i32",
           basic_type := "i32", scope := "" },
         { name := "b", mutable := false, file_path := "f.rs", line_number := 3,
           context := "let (a, b): (i32, String) = get();",
           var_kind := "explicitly typed pattern", var_type := "String",
           basic_type := "String", scope := "" }]) := rfl

/-- C2: the fallback line scanner is claimed to emit exactly one
Declaration Record for each struct, enum or function declaration in the
file; evaluating it on a file consisting of the declarations
`struct Foo \x7b`, `enum Baz \x7b` and `fn bar() \x7b` yields no
Declaration Record at all: the scanner searches for the literal word
"function" instead of `fn`, and its struct/enum name extraction slices the
text starting at the space that follows the keyword, so the guard rejects
the line. -/
theorem c2_fallback_scanner_bug :
    analyse_file_manual_implementation
        [String.toList "struct Foo \x7b", String.toList "enum Baz \x7b",
         String.toList "fn bar() \x7b"] "f.rs" =
      .ok ([], [], []) := rfl

/-- C3: `extract_var_name_and_kind` is claimed total on arbitrary lines;
on the malformed line `let mut (a = 1;` (destructuring pattern with an
unclosed bracket) it finds no closing bracket, leaves `pattern_end` at the
length of the rest of the line, and the slice `&rest[0..pattern_end + 1]`
runs one byte past the end and panics, so the whole fallback analysis of a
file containing that line fails. -/
theorem c3_unclosed_bracket_panics :
    extract_var_name_and_kind (String.toList "let mut (a = 1;") 8 = .error () ∧
    analyse_file_manual_implementation [String.toList "let mut (a = 1;"] "f.rs" =
      .error () :=
  ⟨rfl, rfl⟩

/-- C4: `infer_type_from_context` is claimed total and never failing; on
the line `let: a>b<cccc;` it reaches `extract_detailed_type` on the
annotation text `a>b<cccc`, where the `>` precedes the `<`, so
`generic_start + 1 > generic_end` and the slice
`&type_str[generic_start + 1..generic_end]` panics. -/
theorem c4_context_inference_panics :
    infer_type_from_context (String.toList "let: a>b<cccc;") = .error () := by
  have h : infer_type_from_context (String.toList "let: a>b<cccc;") =
      extract_detailed_type (String.toList "a>b<cccc") := rfl
  rw [h, extract_detailed_type.eq_def]
  rfl

/-- C5: type classification is deterministic: `extract_detailed_type` is a
pure function of its argument, so two calls on equal input strings yield
identical results. -/
theorem c5_classification_deterministic :
    ∀ s t : List Char, s = t → extract_detailed_type s = extract_detailed_type t :=
  fun _ _ h => h ▸ rfl

theorem c5_witness :
    extract_detailed_type (String.toList "i32") =
      extract_detailed_type (String.toList "i32") :=
  c5_classification_deterministic (String.toList "i32") (String.toList "i32") rfl

/-- C6: visiting function parameters records only mutable identifier
patterns: the signature `fn f(mut n: u32)` yields exactly one mutable
record named `n`; a typed parameter whose pattern is not a mutable
identifier yields zero records, and a receiver yields zero records. -/
theorem c6_params_only_mutable_idents :
    (∀ (fp sc : String) (ln : Nat) (ctx : String),
      visit_fn_args fp sc [FnArg.typed (Pat.ident true "n") (RType.path "u32" [])] ln ctx =
        [{ name := "n", mutable := true, file_path := fp, line_number := ln, context := ctx,
           var_kind := "function parameter: mut n : u32 . ty", var_type := "u32",
           basic_type := "u32", scope := sc }]) ∧
    (∀ (fp sc : String) (ln : Nat) (ctx : String) (pat : Pat) (ty : RType),
      (∀ nm : String, pat ≠ Pat.ident true nm) →
      visit_fn_arg fp sc (FnArg.typed pat ty) ln ctx = []) ∧
    (∀ (fp sc : String) (ln : Nat) (ctx : String),
      visit_fn_arg fp sc FnArg.receiver ln ctx = []) := by
  refine ⟨fun fp sc ln ctx => rfl, ?_, fun fp sc ln ctx => rfl⟩
  intro fp sc ln ctx pat ty h
  match pat with
  | .ident true nm => exact absurd rfl (h nm)
  | .ident false nm => rfl
  | .tuple es => rfl
  | .tupleStruct p es => rfl
  | .structP p fs => rfl
  | .ref m i => rfl
  | .slice es => rfl
  | .orP cs => rfl
  | .typed i t => rfl
  | .wild => rfl

theorem c6_witness :
    visit_fn_arg "f.rs" "g" (FnArg.typed (Pat.ident false "k") (RType.path "i32" [])) 2 "" =
      [] :=
  c6_params_only_mutable_idents.2.1 "f.rs" "g" 2 "" (Pat.ident false "k")
    (RType.path "i32" []) (fun nm h => by simp at h)

/-- C7: for `let mut x = 5;` (bare mutable identifier pattern with an
untyped integer-literal initializer) the tree-path visitor produces
exactly one Binding Record for `x`, in the mutable collection, with
`var_type` describing an integer. -/
theorem c7_let_mut_integer :
    ∀ (fp sc x : String) (ln : Nat) (ctx : String),
      visit_local fp sc { pat := Pat.ident true x, init := some (RExpr.litInt "") } ln ctx =
        .ok ([{ name := x, mutable := true, file_path := fp, line_number := ln,
                context := ctx, var_kind := "inferred from initialization",
                var_type := "integer", basic_type := "integer", scope := sc }], []) :=
  fun fp sc x ln ctx => rfl

/-- C8: the two output collections partition the Binding Records by
mutability on every extraction path: every successful run of
`extract_variables_from_pattern` and `visit_local` puts only
`mutable = true` records in the first list and only `mutable = false`
records in the second, and the fallback `extract_mut_patterns` emits only
mutable records. -/
theorem c8_partition_by_mutability :
    (∀ (fp sc : String) (pat : Pat) (ty : Option RType) (ln : Nat) (ctx : String)
       (res : List VarInfo × List VarInfo),
       extract_variables_from_pattern fp sc pat ty ln ctx = .ok res →
       (∀ v ∈ res.1, v.mutable = true) ∧ (∀ v ∈ res.2, v.mutable = false)) ∧
    (∀ (fp sc : String) (lcl : RLocal) (ln : Nat) (ctx : String)
       (res : List VarInfo × List VarInfo),
       visit_local fp sc lcl ln ctx = .ok res →
       (∀ v ∈ res.1, v.mutable = true) ∧ (∀ v ∈ res.2, v.mutable = false)) ∧
    (∀ (line : List Char) (ln : Nat) (fp : String),
       ∀ v ∈ extract_mut_patterns line ln fp, v.mutable = true) :=
  ⟨fun fp sc pat ty ln ctx res h => evfp_partition fp sc pat ty ln ctx res h,
   fun fp sc lcl ln ctx res h => visit_local_partition fp sc lcl ln ctx res h,
   fun line ln fp v hv => (extract_mut_patterns_mem line ln fp v hv).1⟩

theorem c8_witness :
    (∀ v ∈ [({ name := "x", mutable := true, file_path := "f.rs", line_number := 1,
               context := "", var_kind := "pattern match",
               var_type := "inferred from context", basic_type := "unknown",
               scope := "" } : VarInfo)], v.mutable = true) ∧
    (∀ v ∈ ([] : List VarInfo), v.mutable = false) :=
  c8_partition_by_mutability.1 "f.rs" "" (Pat.ident true "x") none 1 ""
    ([{ name := "x", mutable := true, file_path := "f.rs", line_number := 1,
        context := "", var_kind := "pattern match",
        var_type := "inferred from context", basic_type := "unknown",
        scope := "" }], []) rfl

/-- C9: the sort flag stably sorts both record lists by `name`: the sorted
lists are permutations of the originals, sorted under `byName`, records
with equal names keep their relative order (the filter by any fixed name
is unchanged, hence every field of every record, in particular
`line_number` and `file_path`, is untouched), and `data_structures` is
left unchanged. -/
theorem c9_sort_stable_by_name (r : AnalysisResults) :
    ((applySort r).mutable_vars.Perm r.mutable_vars ∧
     List.Sorted byName (applySort r).mutable_vars ∧
     ∀ n : String, (applySort r).mutable_vars.filter (fun v => v.name == n) =
       r.mutable_vars.filter (fun v => v.name == n)) ∧
    ((applySort r).immutable_vars.Perm r.immutable_vars ∧
     List.Sorted byName (applySort r).immutable_vars ∧
     ∀ n : String, (applySort r).immutable_vars.filter (fun v => v.name == n) =
       r.immutable_vars.filter (fun v => v.name == n)) ∧
    (applySort r).data_structures = r.data_structures := by
  refine ⟨⟨?_, ?_, ?_⟩, ⟨?_, ?_, ?_⟩, rfl⟩
  · exact List.perm_insertionSort byName r.mutable_vars
  · exact List.sorted_insertionSort byName r.mutable_vars
  · intro n
    exact filter_insertionSort n r.mutable_vars
  · exact List.perm_insertionSort byName r.immutable_vars
  · exact List.sorted_insertionSort byName r.immutable_vars
  · intro n
    exact filter_insertionSort n r.immutable_vars

/-- C10 (counterexample): `get_line_number` does not always return a
1-based index: on the span-comment token `// 0:1` it parses the span start
`0` and returns it unchanged, so the result is 0, not at least 1. -/
theorem c10_counterexample :
    get_line_number [String.toList "x"] (String.toList "// 0:1") = 0 ∧
    ¬1 ≤ get_line_number [String.toList "x"] (String.toList "// 0:1") :=
  ⟨rfl, by decide⟩

/-- C10 (amended): whenever the token carries no parsable span comment and
no `bytes(..)` span debug text, `get_line_number` returns a 1-based index
(a successful line search is 1-based, and the fallback is the literal 1);
and every record produced by a successful fallback scan has
`line_number ≥ 1`, since the scanner assigns `i + 1` for the line at
0-based index `i`.  (When a span comment such as `// 0:1` is present its
start line is returned verbatim, which can be 0.) -/
theorem c10_amended :
    (∀ (lines : List (List Char)) (token : List Char),
      spanCommentParse token = none → local_span_to_line_number token = none →
      1 ≤ get_line_number lines token) ∧
    (∀ (lines : List (List Char)) (fp : String)
       (res : List VarInfo × List VarInfo × List DataStructureInfo),
      analyse_file_manual_implementation lines fp = .ok res →
      (∀ v ∈ res.1, 1 ≤ v.line_number) ∧ (∀ v ∈ res.2.1, 1 ≤ v.line_number) ∧
      (∀ d ∈ res.2.2, 1 ≤ d.line_number)) := by
  constructor
  · intro lines token h1 h2
    unfold get_line_number
    rw [h1, h2]
    by_cases he : (trim token).isEmpty
    · simp [he]
    · cases hs : searchLines (trim token) lines 0 with
      | none => simp [he, hs]
      | some j =>
        simp only [he, hs, Bool.false_eq_true, if_false]
        exact searchLines_one_le (trim token) lines 0 j hs
  · intro lines fp res h
    exact manualScanAux_mem fp lines 0 false res h

theorem c10_witness :
    1 ≤ get_line_number [] (String.toList "abc") :=
  c10_amended.1 [] (String.toList "abc") rfl rfl

end Forest
